import Mathlib

/-!
Verification development for the MLMS library-management server.

The definitions below are a shallow embedding of the TypeScript source:

* `apps/server/src/lib/reading-time.ts` (due-date estimator),
* `apps/server/src/lib/external-books.ts` (enrichment pipeline),
* `apps/server/src/routes/loans.routes.ts` and
  `apps/server/src/routes/books.routes.ts` (lending state machine),
* the AI recommendations route.

JS numbers are modelled as `Nat`/`Int`/`ℚ`; nullable values as `Option`;
fallible route handlers as `Except`; async provider calls as pure oracle
functions passed in as arguments (a call's response is the oracle's value
at the query).  The 32-bit unsigned hash is modelled with `% 2 ^ 32`.
-/

namespace MLMS

/-! ## String utilities shared by the TypeScript modules

All string functions are written by structural recursion over `List Char`
so that concrete instances reduce in the kernel. -/

/-- ASCII lowercasing, as JS `toLowerCase` behaves on the ASCII inputs used here. -/
def toLowerStr (s : String) : String :=
  String.mk (s.data.map Char.toLower)

/-- A character kept by the `[^a-z0-9]` normalisation regexes (post-lowercasing). -/
def isLowerAlnum (c : Char) : Bool :=
  c.isLower || c.isDigit

/-- Collapse every run of spaces to a single space. -/
def collapseSpaces : List Char → List Char
  | [] => []
  | c :: rest =>
    let r := collapseSpaces rest
    if c = ' ' then
      match r with
      | ' ' :: _ => r
      | _ => ' ' :: r
    else c :: r

/-- Drop leading and trailing spaces. -/
def trimSpaces (l : List Char) : List Char :=
  ((l.dropWhile (fun c => c = ' ')).reverse.dropWhile (fun c => c = ' ')).reverse

/-- `normalize` in `reading-time.ts` / `normalizeForCompare` in `external-books.ts`:
lowercase, replace every run of non-alphanumerics by one space, trim. -/
def normalizeForCompare (s : String) : String :=
  String.mk (trimSpaces (collapseSpaces (s.data.map (fun c =>
    let d := Char.toLower c
    if isLowerAlnum d then d else ' '))))

/-- `needle` is an initial segment of `hay` (over character lists). -/
def charsLeadOf : List Char → List Char → Bool
  | [], _ => true
  | _ :: _, [] => false
  | a :: as, b :: bs => a == b && charsLeadOf as bs

/-- `needle` occurs as a contiguous run inside `hay`. -/
def charsWithin : List Char → List Char → Bool
  | needle, [] => needle.isEmpty
  | needle, c :: rest => charsLeadOf needle (c :: rest) || charsWithin needle rest

/-- JS `hay.includes(needle)` (substring test). -/
def jsIncludes (hay needle : String) : Bool :=
  charsWithin needle.data hay.data

/-- Drop leading and trailing whitespace, as JS `String.prototype.trim`. -/
def trimWs (s : String) : String :=
  String.mk (((s.data.dropWhile Char.isWhitespace).reverse.dropWhile Char.isWhitespace).reverse)

/-- `isUnknownAuthor` in `external-books.ts`: placeholder-author recognition. -/
def isUnknownAuthor (author : String) : Bool :=
  let n := toLowerStr (trimWs author)
  n = "unknown author" || n = "unknown" || n = "n/a" || n = "na" || n = "-"

/-- JS `Math.round` (round half towards positive infinity) on a rational. -/
def jsRound (q : ℚ) : Int :=
  ⌊q + 1 / 2⌋

/-! ## Due-date estimator (`reading-time.ts`) -/

/-- `minimumDays` in `reading-time.ts`. -/
def minimumDays : Int := 14

/-- `maximumDays` in `reading-time.ts`. -/
def maximumDays : Int := 45

/-- `fallbackDays` in `reading-time.ts`. -/
def fallbackDays : Int := 30

/-- `estimatePagesPerDay` in `reading-time.ts`: genre-bucketed reading speed. -/
def estimatePagesPerDay (category : Option String) : Nat :=
  match category with
  | none => 35
  | some cat =>
    let v := normalizeForCompare cat
    if jsIncludes v "children" || jsIncludes v "young adult" then 50
    else if jsIncludes v "science" || jsIncludes v "engineering" ||
        jsIncludes v "technology" || jsIncludes v "computer" then 25
    else if jsIncludes v "fantasy" || jsIncludes v "historical" || jsIncludes v "classic" then 30
    else 35

/-- `clampDays` in `reading-time.ts`. -/
def clampDays (days : ℚ) : Int :=
  max minimumDays (min maximumDays (jsRound days))

/-- One Google Books volume as consumed by `findGooglePageCount`. -/
structure GVolume where
  title : Option String
  authors : List String
  pageCount : Option Nat
  categories : List String
deriving DecidableEq, Repr

/-- One Open Library doc as consumed by `findOpenLibraryPageCount`. -/
structure OLDoc where
  title : Option String
  authorName : List String
  numberOfPagesMedian : Option Nat
deriving DecidableEq, Repr

/-- The title/author similarity score shared by both page-count pickers
(exact title +30 / partial +15, exact author +20 / partial +10). -/
def pageCandidateBaseScore (titleNorm authorNorm candTitle candAuthor : String) : Int :=
  (if candTitle = titleNorm then 30
   else if candTitle ≠ "" && titleNorm ≠ "" &&
       (jsIncludes candTitle titleNorm || jsIncludes titleNorm candTitle) then 15
   else 0) +
  (if candAuthor = authorNorm then 20
   else if candAuthor ≠ "" && authorNorm ≠ "" &&
       (jsIncludes candAuthor authorNorm || jsIncludes authorNorm candAuthor) then 10
   else 0)

/-- Loop body of `findGooglePageCount`: keep the strictly better-scoring volume. -/
def googleStep (titleNorm authorNorm : String)
    (best : Option (Int × Nat × Option String)) (item : GVolume) :
    Option (Int × Nat × Option String) :=
  match item.pageCount with
  | none => best
  | some pc =>
    if pc < 30 then best
    else
      let candTitle := normalizeForCompare (item.title.getD "")
      let candAuthor := normalizeForCompare (item.authors.headD "")
      let score := pageCandidateBaseScore titleNorm authorNorm candTitle candAuthor +
        min 15 ((pc : Int) / 40)
      match best with
      | none => some (score, pc, item.categories.head?)
      | some (s0, pc0, cat0) =>
        if s0 < score then some (score, pc, item.categories.head?) else some (s0, pc0, cat0)

/-- `findGooglePageCount` in `reading-time.ts`, with the provider response
modelled as the list of returned volumes. -/
def findGooglePageCount (title author : String) (items : List GVolume) :
    Option (Nat × Option String) :=
  let titleNorm := normalizeForCompare title
  let authorNorm := normalizeForCompare author
  match items.foldl (googleStep titleNorm authorNorm) none with
  | none => none
  | some (_, pc, cat) => some (pc, cat)

/-- Loop body of `findOpenLibraryPageCount`. -/
def openLibraryStep (titleNorm authorNorm : String)
    (best : Option (Int × Nat)) (doc : OLDoc) : Option (Int × Nat) :=
  match doc.numberOfPagesMedian with
  | none => best
  | some pages =>
    if pages < 30 then best
    else
      let candTitle := normalizeForCompare (doc.title.getD "")
      let candAuthor := normalizeForCompare (doc.authorName.headD "")
      let score := pageCandidateBaseScore titleNorm authorNorm candTitle candAuthor
      match best with
      | none => some (score, pages)
      | some (s0, p0) => if s0 < score then some (score, pages) else some (s0, p0)

/-- `findOpenLibraryPageCount` in `reading-time.ts`. -/
def findOpenLibraryPageCount (title author : String) (docs : List OLDoc) : Option Nat :=
  let titleNorm := normalizeForCompare title
  let authorNorm := normalizeForCompare author
  match docs.foldl (openLibraryStep titleNorm authorNorm) none with
  | none => none
  | some (_, pages) => some pages

/-- Source tag on a due-date estimate (`"google_books" | "openlibrary" | "fallback"`). -/
inductive DueSource
  | googleBooks
  | openLibrary
  | fallback
deriving DecidableEq, Repr

/-- Result shape of `estimateLoanDueDate` (the `dueAt` date is `now + days`
in milliseconds, kept abstract via the `now` argument at use sites). -/
structure DueDateEstimate where
  days : Int
  source : DueSource
  pageCount : Option Nat
deriving DecidableEq, Repr

/-- `estimateLoanDueDate` in `reading-time.ts`: Google Books first (page count
and category), Open Library second (page count only), else the 30-day fallback.
The two provider responses are passed in as oracle lists. -/
def estimateLoanDueDate (title author : String)
    (gItems : List GVolume) (olDocs : List OLDoc) : DueDateEstimate :=
  match findGooglePageCount title author gItems with
  | some (pc, cat) =>
    let pagesPerDay := estimatePagesPerDay cat
    { days := clampDays ((pc : ℚ) / (pagesPerDay : ℚ)),
      source := .googleBooks,
      pageCount := some pc }
  | none =>
    match findOpenLibraryPageCount title author olDocs with
    | some pages =>
      { days := clampDays ((pages : ℚ) / 35),
        source := .openLibrary,
        pageCount := some pages }
    | none =>
      { days := fallbackDays, source := .fallback, pageCount := none }

/-! ## Enrichment pipeline (`external-books.ts`) -/

/-- JS truthiness of a nullable string: `null` and `""` are falsy. -/
def strFalsy : Option String → Bool
  | none => true
  | some s => s = ""

/-- JS truthiness of a nullable number: `null` and `0` are falsy. -/
def natFalsy : Option Nat → Bool
  | none => true
  | some n => n = 0

/-- Which external source produced a candidate. -/
inductive ProviderTag
  | openlibrary
  | google
deriving DecidableEq, Repr

/-- `SearchProvider`: an explicit source or `"auto"`. -/
inductive SearchProvider
  | openlibrary
  | google
  | auto
deriving DecidableEq, Repr

/-- A catalog row (`LocalBook` / prisma `book`) as consumed by the enrichment code. -/
structure LocalBook where
  title : String
  author : String
  isbn : Option String
  genre : Option String
  publishedYear : Option Nat
  description : Option String
  coverUrl : Option String
  averageRating : Option ℚ
  ratingsCount : Option Nat
  aiMetadata : Bool
deriving DecidableEq, Repr

/-- `ExternalBookCandidate` (ephemeral provider result). -/
structure Candidate where
  title : String
  author : String
  isbn : Option String
  genre : Option String
  publishedYear : Option Nat
  description : Option String
  coverUrl : Option String
  averageRating : Option ℚ
  ratingsCount : Option Nat
  source : ProviderTag
deriving DecidableEq, Repr

/-- `MetadataPatch`: each field is `some v` when present in the JS object. -/
structure MetadataPatch where
  author : Option String := none
  coverUrl : Option String := none
  description : Option String := none
  genre : Option String := none
  publishedYear : Option Nat := none
  isbn : Option String := none
  averageRating : Option ℚ := none
  ratingsCount : Option Nat := none
deriving DecidableEq, Repr

/-- `buildMetadataPatch` in `external-books.ts`: fill-missing-only patch. -/
def buildMetadataPatch (existing : LocalBook) (candidate : Candidate) : MetadataPatch where
  author :=
    if isUnknownAuthor existing.author ∧ candidate.author ≠ "" ∧
        ¬ isUnknownAuthor candidate.author then some candidate.author else none
  coverUrl := if strFalsy existing.coverUrl ∧ ¬ strFalsy candidate.coverUrl
    then candidate.coverUrl else none
  description := if strFalsy existing.description ∧ ¬ strFalsy candidate.description
    then candidate.description else none
  genre := if strFalsy existing.genre ∧ ¬ strFalsy candidate.genre
    then candidate.genre else none
  publishedYear := if natFalsy existing.publishedYear ∧ ¬ natFalsy candidate.publishedYear
    then candidate.publishedYear else none
  isbn := if strFalsy existing.isbn ∧ ¬ strFalsy candidate.isbn
    then candidate.isbn else none
  averageRating := if existing.averageRating = none ∧ candidate.averageRating ≠ none
    then candidate.averageRating else none
  ratingsCount := if existing.ratingsCount = none ∧ candidate.ratingsCount ≠ none
    then candidate.ratingsCount else none

/-- `Object.keys(patch).length` for a `MetadataPatch`. -/
def MetadataPatch.size (p : MetadataPatch) : Nat :=
  (if p.author.isSome then 1 else 0) + (if p.coverUrl.isSome then 1 else 0) +
  (if p.description.isSome then 1 else 0) + (if p.genre.isSome then 1 else 0) +
  (if p.publishedYear.isSome then 1 else 0) + (if p.isbn.isSome then 1 else 0) +
  (if p.averageRating.isSome then 1 else 0) + (if p.ratingsCount.isSome then 1 else 0)

/-- Override a nullable field with a patch entry when the entry is present. -/
def patchField {α : Type} (entry : Option α) (old : Option α) : Option α :=
  match entry with
  | some v => some v
  | none => old

/-- Applying a `MetadataPatch` to a row (`prisma.book.update` with `data: patch`). -/
def applyPatch (b : LocalBook) (p : MetadataPatch) : LocalBook where
  title := b.title
  author := p.author.getD b.author
  isbn := patchField p.isbn b.isbn
  genre := patchField p.genre b.genre
  publishedYear := patchField p.publishedYear b.publishedYear
  description := patchField p.description b.description
  coverUrl := patchField p.coverUrl b.coverUrl
  averageRating := patchField p.averageRating b.averageRating
  ratingsCount := patchField p.ratingsCount b.ratingsCount
  aiMetadata := b.aiMetadata

/-- The enrichment update in `enrichLibraryMetadata`:
`prisma.book.update` with `data: { ...patch, aiMetadata: true }`. -/
def applyEnrichmentUpdate (b : LocalBook) (p : MetadataPatch) : LocalBook :=
  { applyPatch b p with aiMetadata := true }

/-- One step of `hashString` (`hash * 31 + charCode`, kept in 32 bits by `>>> 0`). -/
def hashStep (h : Nat) (c : Char) : Nat :=
  (h * 31 + c.toNat) % 2 ^ 32

/-- `hashString` in `external-books.ts`. -/
def hashString (s : String) : Nat :=
  s.data.foldl hashStep 0

/-- `CoreMetadataPatch` (subset used by `enrichMissingCoreMetadata`). -/
structure CoreMetadataPatch where
  author : Option String := none
  coverUrl : Option String := none
  genre : Option String := none
  averageRating : Option ℚ := none
  ratingsCount : Option Nat := none
deriving DecidableEq, Repr

/-- The `averageRating`/`ratingsCount` assignments of `buildSyntheticCorePatch`:
`3.4 + (hash % 14) * 0.1` rendered via `toFixed(1)` (so exactly `(34 + hash % 14)/10`)
and `12 + (hash % 240)`, each gated on the field being absent from both the
pending patch and the existing row.  The key is `title + "|" + author`. -/
def buildSyntheticRatingPatch (existing : LocalBook) (pending : CoreMetadataPatch) :
    Option ℚ × Option Nat :=
  let hash := hashString (existing.title ++ "|" ++ existing.author)
  let rating : Option ℚ :=
    if pending.averageRating = none ∧ existing.averageRating = none then
      some (((34 + hash % 14 : Nat) : ℚ) / 10)
    else none
  let count : Option Nat :=
    if pending.ratingsCount = none ∧ existing.ratingsCount = none then
      some (12 + hash % 240)
    else none
  (rating, count)

/-- `candidateScore` in `external-books.ts`, accumulating the score in the
same order as the source. -/
def candidateScore (book : LocalBook) (candidate : Candidate) : Int :=
  let titleA := normalizeForCompare book.title
  let titleB := normalizeForCompare candidate.title
  let authorA := normalizeForCompare book.author
  let authorB := normalizeForCompare candidate.author
  let s1 : Int :=
    if ¬ strFalsy book.isbn ∧ ¬ strFalsy candidate.isbn then
      if book.isbn = candidate.isbn then 100 else -30
    else 0
  let s2 : Int := s1 +
    (if titleA = titleB then 40
     else if titleA ≠ "" ∧ titleB ≠ "" ∧ (jsIncludes titleA titleB ∨ jsIncludes titleB titleA)
       then 20 else 0)
  let s3 : Int := s2 +
    (if authorA = authorB then 25
     else if authorA ≠ "" ∧ authorB ≠ "" ∧ (jsIncludes authorA authorB ∨ jsIncludes authorB authorA)
       then 10 else 0)
  s3 + 6 * ((buildMetadataPatch book candidate).size : Int)

/-- Dedupe key: `candidate.isbn ?? title.toLowerCase() + "|" + author.toLowerCase()`
(nullish coalescing, so an empty-string ISBN is still used as the key). -/
def dedupeKey (c : Candidate) : String :=
  match c.isbn with
  | some i => i
  | none => toLowerStr c.title ++ "|" ++ toLowerStr c.author

/-- Worker for `dedupeCandidates`, carrying the `seen` key set. -/
def dedupeGo (seen : List String) : List Candidate → List Candidate
  | [] => []
  | c :: rest =>
    if dedupeKey c ∈ seen then dedupeGo seen rest
    else c :: dedupeGo (dedupeKey c :: seen) rest

/-- `dedupeCandidates` in `external-books.ts`: keep the first candidate per key. -/
def dedupeCandidates (l : List Candidate) : List Candidate :=
  dedupeGo [] l

/-- `queryByProvider` in `external-books.ts`; provider responses are the oracle
functions `g` (Google) and `ol` (Open Library).  In `auto` mode Google is
queried first, Open Library only when Google returned nothing. -/
def queryByProvider (g ol : String → List Candidate) :
    SearchProvider → String → List Candidate
  | .openlibrary, q => dedupeCandidates (ol q)
  | .google, q => dedupeCandidates (g q)
  | .auto, q => if g q = [] then dedupeCandidates (ol q) else dedupeCandidates (g q)

/-- The three query attempts of `findBestCandidateForBook`, in priority order. -/
def attemptsFor (book : LocalBook) : List String :=
  (match book.isbn with
   | some i => if i = "" then [] else ["isbn:" ++ i]
   | none => []) ++
  [book.title ++ " " ++ book.author, book.title]

/-- Inner-loop body of `findBestCandidateForBook`: replace the best candidate
only on a strictly greater score (`score > bestScore`), so ties keep the
first-seen candidate. -/
def bestStep (book : LocalBook) (best : Option (Candidate × Int)) (c : Candidate) :
    Option (Candidate × Int) :=
  let s := candidateScore book c
  match best with
  | none => some (c, s)
  | some (c0, s0) => if s0 < s then some (c, s) else some (c0, s0)

/-- Attempt loop of `findBestCandidateForBook`: after each attempt return the
running best once it scores ≥ 25; after the last attempt accept it only at ≥ 18. -/
def fbLoop (book : LocalBook) (fetch : String → List Candidate) :
    List String → Option (Candidate × Int) → Option Candidate
  | [], best =>
    match best with
    | some (c, s) => if 18 ≤ s then some c else none
    | none => none
  | q :: rest, best =>
    match (fetch q).foldl (bestStep book) best with
    | some (c, s) => if 25 ≤ s then some c else fbLoop book fetch rest (some (c, s))
    | none => fbLoop book fetch rest none

/-- `findBestCandidateForBook` in `external-books.ts`. -/
def findBestCandidateForBook (book : LocalBook) (g ol : String → List Candidate)
    (provider : SearchProvider) : Option Candidate :=
  fbLoop book (queryByProvider g ol provider) (attemptsFor book) none

/-- Specification-level best pick: the first candidate attaining the maximal
score (earlier candidates win ties). -/
def pickBest (book : LocalBook) : List Candidate → Option (Candidate × Int)
  | [] => none
  | c :: cs =>
    let s := candidateScore book c
    match pickBest book cs with
    | none => some (c, s)
    | some (d, t) => if t ≤ s then some (c, s) else some (d, t)

/-! ## Lending state machine
(`loans.routes.ts` checkout/checkin, `books.routes.ts` borrow requests)

A prisma transaction either commits every write or rolls all of them back,
so each route's transaction body is embedded as one pure function returning
`Except`: an `error` result leaves the caller's state untouched. -/

/-- The lending-relevant flags of a catalog row. -/
structure BookRow where
  available : Bool
  requestPending : Bool
deriving DecidableEq, Repr

/-- A `Loan` row (`returnedAt = none` means active). -/
structure LoanRow where
  bookId : Nat
  userId : Nat
  dueAt : Option Nat
  returnedAt : Option Nat
deriving DecidableEq, Repr

/-- `BorrowRequest.status`. -/
inductive ReqStatus
  | pending
  | approved
  | declined
deriving DecidableEq, Repr

/-- A `BorrowRequest` row. -/
structure RequestRow where
  userId : Nat
  bookId : Nat
  status : ReqStatus
deriving DecidableEq, Repr

/-- `HttpError` discriminants raised by the lending routes. -/
inductive HErr
  | notFound
  | conflict
  | forbidden
deriving DecidableEq, Repr

/-- The persistent store visible to the lending routes. -/
structure LendingState where
  books : List (Nat × BookRow)
  loans : List LoanRow
  requests : List (Nat × RequestRow)
deriving DecidableEq, Repr

/-- First value stored under a key. -/
def lookupAssoc {α : Type} (id : Nat) : List (Nat × α) → Option α
  | [] => none
  | (k, v) :: rest => if k = id then some v else lookupAssoc id rest

/-- prisma `updateMany`: apply `f` to every row satisfying `p` and also
return the matched-row count. -/
def updateWhere {α : Type} (p : Nat × α → Bool) (f : α → α) :
    List (Nat × α) → List (Nat × α) × Nat
  | [] => ([], 0)
  | kv :: rest =>
    let r := updateWhere p f rest
    if p kv then ((kv.1, f kv.2) :: r.1, r.2 + 1) else (kv :: r.1, r.2)

/-- `POST /loans/checkout`: 404 pre-check, then one transaction holding the
conditional claim (`updateMany where { id, available: true }`, conflict unless
exactly one row matched) and the `Loan` insert. -/
def checkout (s : LendingState) (bookId userId : Nat) (dueAt : Option Nat) :
    Except HErr LendingState :=
  match lookupAssoc bookId s.books with
  | none => .error .notFound
  | some _ =>
    let claim := updateWhere (fun kb => kb.1 == bookId && kb.2.available)
      (fun b => { b with available := false }) s.books
    if claim.2 = 1 then
      .ok { s with
        books := claim.1,
        loans := s.loans ++ [{ bookId := bookId, userId := userId, dueAt := dueAt,
                               returnedAt := none }] }
    else .error .conflict

/-- `prisma.loan.findFirst({ where: { bookId, returnedAt: null } })`. -/
def findActiveLoan (bookId : Nat) : List LoanRow → Option LoanRow
  | [] => none
  | l :: rest =>
    if l.bookId = bookId ∧ l.returnedAt = none then some l else findActiveLoan bookId rest

/-- Set `returnedAt` on the first active loan for `bookId` (the row the
checkin transaction updates by id). -/
def setReturnedFirst (bookId now : Nat) : List LoanRow → List LoanRow
  | [] => []
  | l :: rest =>
    if l.bookId = bookId ∧ l.returnedAt = none then
      { l with returnedAt := some now } :: rest
    else l :: setReturnedFirst bookId now rest

/-- `POST /loans/checkin`: 404 when no active loan, 403 unless owner or admin,
then one transaction setting `available := true` and `returnedAt := now`. -/
def checkin (s : LendingState) (bookId viewerId : Nat) (viewerIsAdmin : Bool)
    (now : Nat) : Except HErr LendingState :=
  match findActiveLoan bookId s.loans with
  | none => .error .notFound
  | some loan =>
    if viewerIsAdmin = false ∧ loan.userId ≠ viewerId then .error .forbidden
    else
      .ok { s with
        books := (updateWhere (fun kb => kb.1 == bookId)
          (fun b => { b with available := true }) s.books).1,
        loans := setReturnedFirst bookId now s.loans }

/-- `POST /borrow-requests`: one transaction holding the claim
(`updateMany where { id, available: true, requestPending: false }` flipping
`requestPending`) and the `BorrowRequest` insert (`reqId` stands for the
store-generated id). -/
def createRequest (s : LendingState) (bookId userId reqId : Nat) :
    Except HErr LendingState :=
  let claim := updateWhere
    (fun kb => kb.1 == bookId && (kb.2.available && !kb.2.requestPending))
    (fun b => { b with requestPending := true }) s.books
  if claim.2 = 1 then
    .ok { s with
      books := claim.1,
      requests := s.requests ++
        [(reqId, { userId := userId, bookId := bookId, status := .pending })] }
  else .error .conflict

/-- `POST /borrow-requests/:id/approve`: 404 pre-check, 409 when no longer
pending, then one transaction re-claiming the request (`status = PENDING`),
claiming the book (`available ∧ requestPending` flipped to `false/false`) and
inserting the `Loan`; any failed claim rolls the whole transaction back. -/
def approve (s : LendingState) (reqId : Nat) (dueAt : Nat) : Except HErr LendingState :=
  match lookupAssoc reqId s.requests with
  | none => .error .notFound
  | some req =>
    if req.status ≠ .pending then .error .conflict
    else
      let reqClaim := updateWhere
        (fun kr => kr.1 == reqId && decide (kr.2.status = .pending))
        (fun r => { r with status := .approved }) s.requests
      if reqClaim.2 ≠ 1 then .error .conflict
      else
        let bookClaim := updateWhere
          (fun kb => kb.1 == req.bookId && (kb.2.available && kb.2.requestPending))
          (fun b => { b with available := false, requestPending := false }) s.books
        if bookClaim.2 ≠ 1 then .error .conflict
        else
          .ok { books := bookClaim.1,
                loans := s.loans ++ [{ bookId := req.bookId, userId := req.userId,
                                       dueAt := some dueAt, returnedAt := none }],
                requests := reqClaim.1 }

/-- `POST /borrow-requests/:id/decline`: 404 pre-check, 409 when no longer
pending, then one transaction declining the request and releasing
`requestPending` (this second update has no matched-count check). -/
def decline (s : LendingState) (reqId : Nat) : Except HErr LendingState :=
  match lookupAssoc reqId s.requests with
  | none => .error .notFound
  | some req =>
    if req.status ≠ .pending then .error .conflict
    else
      let reqClaim := updateWhere
        (fun kr => kr.1 == reqId && decide (kr.2.status = .pending))
        (fun r => { r with status := .declined }) s.requests
      if reqClaim.2 ≠ 1 then .error .conflict
      else
        .ok { books := (updateWhere
                (fun kb => kb.1 == req.bookId && (kb.2.available && kb.2.requestPending))
                (fun b => { b with requestPending := false }) s.books).1,
              loans := s.loans,
              requests := reqClaim.1 }

/-- Run a sequence of checkout attempts for one book serially (the store
serialises the conditional updates), counting wins and conflicts. -/
def runCheckouts (bookId : Nat) (dueAt : Option Nat) :
    LendingState → List Nat → LendingState × Nat × Nat
  | s, [] => (s, 0, 0)
  | s, u :: us =>
    match checkout s bookId u dueAt with
    | .ok s2 =>
      let r := runCheckouts bookId dueAt s2 us
      (r.1, r.2.1 + 1, r.2.2)
    | .error _ =>
      let r := runCheckouts bookId dueAt s us
      (r.1, r.2.1, r.2.2 + 1)

/-- Number of active (`returnedAt = null`) loans recorded for a book. -/
def activeLoanCount (bookId : Nat) (loans : List LoanRow) : Nat :=
  loans.countP (fun l => decide (l.bookId = bookId ∧ l.returnedAt = none))

/-! ## Recommendation scorer (`POST /ai/recommendations`) -/

/-- One loan-history entry as selected by the route (book genre/author). -/
structure HistEntry where
  bookId : Nat
  genre : Option String
  author : String
deriving DecidableEq, Repr

/-- A candidate row as scored by the route. -/
structure RecBook where
  id : Nat
  title : String
  author : String
  genre : Option String
  averageRating : Option ℚ
  ratingsCount : Option Nat
  available : Bool
  requestPending : Bool
deriving DecidableEq, Repr

/-- `Math.max(1, 5 - Math.floor(index / 8))` for the history entry at `index`. -/
def recencyWeight (i : Nat) : ℚ :=
  max 1 ((5 : ℚ) - (i / 8 : Nat))

/-- Accumulated genre weight (`genreWeights.get(g) ?? 0`); entries whose genre
is falsy (`null` or `""`) are never added, matching `if (loan.book.genre)`. -/
def genreWeightOf (history : List HistEntry) (g : String) : ℚ :=
  (history.enum.map (fun p =>
    if p.2.genre = some g ∧ g ≠ "" then recencyWeight p.1 else 0)).sum

/-- Accumulated author weight (`authorWeights.get(a) ?? 0`, no truthiness guard). -/
def authorWeightOf (history : List HistEntry) (a : String) : ℚ :=
  (history.enum.map (fun p => if p.2.author = a then recencyWeight p.1 else 0)).sum

/-- `Number(x.toFixed(2))` on the non-negative scores produced here. -/
def round2 (q : ℚ) : ℚ :=
  (⌊q * 100 + 1 / 2⌋ : Int) / 100

/-- The candidate score of the recommendations route.  `vb` is the oracle for
`Math.min(2, Math.log10(n + 1))` (transcendental, so kept abstract). -/
def recommendationScore (history : List HistEntry) (vb : Nat → ℚ) (book : RecBook) : ℚ :=
  let genreScore : ℚ := match book.genre with
    | some g => genreWeightOf history g
    | none => 0
  let authorScore := authorWeightOf history book.author
  let noveltyBonus : ℚ := if history = [] then 2 else 0
  let ratingBoost := book.averageRating.getD 0 * (3 / 2)
  let ratingVolumeBoost := vb (book.ratingsCount.getD 0)
  let availabilityBoost : ℚ := if book.available then 1 else 0
  round2 (genreScore * (6 / 5) + authorScore * (7 / 5) + noveltyBonus + ratingBoost +
    ratingVolumeBoost + availabilityBoost)

/-- The candidate pool query: available, no pending request, not previously
borrowed by this viewer, first 200 rows. -/
def candidatePool (allBooks : List RecBook) (borrowedIds : List Nat) : List RecBook :=
  (allBooks.filter (fun b =>
    b.available && !b.requestPending && decide (b.id ∉ borrowedIds))).take 200

/-- Stable descending insertion: an element is placed after every
already-ranked element of greater-or-equal score (JS stable `sort`). -/
def insertDesc (x : RecBook × ℚ) : List (RecBook × ℚ) → List (RecBook × ℚ)
  | [] => [x]
  | y :: rest => if y.2 < x.2 then x :: y :: rest else y :: insertDesc x rest

/-- Score, stably sort descending, truncate to the requested limit. -/
def rankRecommendations (history : List HistEntry) (vb : Nat → ℚ)
    (candidates : List RecBook) (limit : Nat) : List (RecBook × ℚ) :=
  (((candidates.map (fun b => (b, recommendationScore history vb b))).foldl
    (fun acc x => insertDesc x acc) []).take limit)

/-- The whole scoring pipeline of `POST /ai/recommendations`. -/
def recommendPipeline (history : List HistEntry) (vb : Nat → ℚ)
    (allBooks : List RecBook) (limit : Nat) : List (RecBook × ℚ) :=
  rankRecommendations history vb
    (candidatePool allBooks (history.map (fun h => h.bookId))) limit

/-- Modelled from the spec's scoring table: +100 for an exact ISBN match,
−30 when both sides carry ISBNs that differ, 0 otherwise. -/
def specIsbnTerm (book : LocalBook) (c : Candidate) : Int :=
  if ¬ strFalsy book.isbn ∧ ¬ strFalsy c.isbn then
    if book.isbn = c.isbn then 100 else -30
  else 0

/-- Modelled from the spec's scoring table: +40 for an exact
case/punctuation-insensitive title match, +20 when one (non-empty normalized)
title contains the other. -/
def specTitleTerm (book : LocalBook) (c : Candidate) : Int :=
  if normalizeForCompare book.title = normalizeForCompare c.title then 40
  else if normalizeForCompare book.title ≠ "" ∧ normalizeForCompare c.title ≠ "" ∧
      (jsIncludes (normalizeForCompare book.title) (normalizeForCompare c.title) ∨
       jsIncludes (normalizeForCompare c.title) (normalizeForCompare book.title)) then 20
  else 0

/-- Modelled from the spec's scoring table: +25 for an exact author match,
+10 on containment. -/
def specAuthorTerm (book : LocalBook) (c : Candidate) : Int :=
  if normalizeForCompare book.author = normalizeForCompare c.author then 25
  else if normalizeForCompare book.author ≠ "" ∧ normalizeForCompare c.author ≠ "" ∧
      (jsIncludes (normalizeForCompare book.author) (normalizeForCompare c.author) ∨
       jsIncludes (normalizeForCompare c.author) (normalizeForCompare book.author)) then 10
  else 0

/-- Combine a held best pair with the best of later candidates: the held pair
wins ties, because the code replaces the best only on a strictly greater
score. -/
def mergeBest (a : Candidate × Int) (pb : Option (Candidate × Int)) :
    Option (Candidate × Int) :=
  match pb with
  | none => some a
  | some (d, t) => if t ≤ a.2 then some a else some (d, t)

/-! ## Helper lemmas -/

theorem googleStep_min (titleNorm authorNorm : String)
    (acc : Option (Int × Nat × Option String))
    (hacc : ∀ x, acc = some x → 30 ≤ x.2.1) (item : GVolume) :
    ∀ y, googleStep titleNorm authorNorm acc item = some y → 30 ≤ y.2.1 := by
  intro y hy
  unfold googleStep at hy
  split at hy
  · exact hacc y hy
  · rename_i pc hpc
    dsimp only at hy
    split at hy
    · exact hacc y hy
    · rename_i hlt
      rcases hb : acc with _ | ⟨s0, pc0, cat0⟩ <;> rw [hb] at hy <;> dsimp only at hy
      · simp only [Option.some.injEq] at hy
        subst hy
        simpa using Nat.le_of_not_lt hlt
      · split at hy <;> simp only [Option.some.injEq] at hy <;> subst hy
        · simpa using Nat.le_of_not_lt hlt
        · exact hacc _ hb

theorem foldl_googleStep_min (titleNorm authorNorm : String) :
    ∀ (items : List GVolume) (acc : Option (Int × Nat × Option String)),
      (∀ x, acc = some x → 30 ≤ x.2.1) →
      ∀ y, items.foldl (googleStep titleNorm authorNorm) acc = some y → 30 ≤ y.2.1 := by
  intro items
  induction items with
  | nil => intro acc hacc y hy; exact hacc y hy
  | cons item rest ih =>
    intro acc hacc y hy
    exact ih (googleStep titleNorm authorNorm acc item)
      (googleStep_min titleNorm authorNorm acc hacc item) y hy

theorem olStep_min (titleNorm authorNorm : String) (acc : Option (Int × Nat))
    (hacc : ∀ x, acc = some x → 30 ≤ x.2) (doc : OLDoc) :
    ∀ y, openLibraryStep titleNorm authorNorm acc doc = some y → 30 ≤ y.2 := by
  intro y hy
  unfold openLibraryStep at hy
  split at hy
  · exact hacc y hy
  · rename_i pages hpc
    dsimp only at hy
    split at hy
    · exact hacc y hy
    · rename_i hlt
      rcases hb : acc with _ | ⟨s0, p0⟩ <;> rw [hb] at hy <;> dsimp only at hy
      · simp only [Option.some.injEq] at hy
        subst hy
        simpa using Nat.le_of_not_lt hlt
      · split at hy <;> simp only [Option.some.injEq] at hy <;> subst hy
        · simpa using Nat.le_of_not_lt hlt
        · exact hacc _ hb

theorem foldl_olStep_min (titleNorm authorNorm : String) :
    ∀ (docs : List OLDoc) (acc : Option (Int × Nat)),
      (∀ x, acc = some x → 30 ≤ x.2) →
      ∀ y, docs.foldl (openLibraryStep titleNorm authorNorm) acc = some y → 30 ≤ y.2 := by
  intro docs
  induction docs with
  | nil => intro acc hacc y hy; exact hacc y hy
  | cons doc rest ih =>
    intro acc hacc y hy
    exact ih (openLibraryStep titleNorm authorNorm acc doc)
      (olStep_min titleNorm authorNorm acc hacc doc) y hy

theorem findGooglePageCount_min {t a : String} {items : List GVolume} {pc : Nat}
    {cat : Option String} (h : findGooglePageCount t a items = some (pc, cat)) : 30 ≤ pc := by
  unfold findGooglePageCount at h
  dsimp only at h
  split at h
  · exact absurd h (by simp)
  · rename_i s ypc ycat hf
    simp only [Option.some.injEq, Prod.mk.injEq] at h
    have h30 := foldl_googleStep_min (normalizeForCompare t) (normalizeForCompare a) items none
      (by intro x hx; exact absurd hx (by simp)) (s, ypc, ycat) hf
    simp only at h30
    omega

theorem findOpenLibraryPageCount_min {t a : String} {docs : List OLDoc} {p : Nat}
    (h : findOpenLibraryPageCount t a docs = some p) : 30 ≤ p := by
  unfold findOpenLibraryPageCount at h
  dsimp only at h
  split at h
  · exact absurd h (by simp)
  · rename_i s pages hf
    simp only [Option.some.injEq] at h
    have h30 := foldl_olStep_min (normalizeForCompare t) (normalizeForCompare a) docs none
      (by intro x hx; exact absurd hx (by simp)) (s, pages) hf
    simp only at h30
    omega

/-! ## C5 — due-date formula -/

/-- C5 (amended): the due-date estimate equals pageCount ÷ pagesPerDay(category)
rounded to the nearest integer and clamped to [14, 45]; pagesPerDay buckets are
children/young-adult 50, science/engineering/technology/computer 25,
fantasy/historical/classic 30, default 35; a page count below 30 is rejected as
noise by both sources; with no usable page count the estimate is the 30-day
fallback; a page count of 1000 at the default 35 pages/day yields 29 days
(28.57 rounded, inside the clamp range), and a page count of 50 clamps to the
14-day minimum. -/
theorem dueDate_days_formula :
    (estimatePagesPerDay none = 35) ∧
    (estimatePagesPerDay (some "Children") = 50) ∧
    (estimatePagesPerDay (some "Young Adult") = 50) ∧
    (estimatePagesPerDay (some "Science") = 25) ∧
    (estimatePagesPerDay (some "Engineering") = 25) ∧
    (estimatePagesPerDay (some "Technology") = 25) ∧
    (estimatePagesPerDay (some "Computer") = 25) ∧
    (estimatePagesPerDay (some "Fantasy") = 30) ∧
    (estimatePagesPerDay (some "Historical") = 30) ∧
    (estimatePagesPerDay (some "Classic") = 30) ∧
    (estimatePagesPerDay (some "Romance") = 35) ∧
    (∀ q : ℚ, clampDays q = max 14 (min 45 (jsRound q)) ∧
      14 ≤ clampDays q ∧ clampDays q ≤ 45) ∧
    (∀ (t a : String) (items : List GVolume) (pc : Nat) (cat : Option String),
      findGooglePageCount t a items = some (pc, cat) → 30 ≤ pc) ∧
    (∀ (t a : String) (docs : List OLDoc) (p : Nat),
      findOpenLibraryPageCount t a docs = some p → 30 ≤ p) ∧
    (∀ (t a : String) (items : List GVolume) (docs : List OLDoc) (pc : Nat)
      (cat : Option String), findGooglePageCount t a items = some (pc, cat) →
      (estimateLoanDueDate t a items docs).days =
        clampDays ((pc : ℚ) / (estimatePagesPerDay cat : ℚ))) ∧
    (∀ (t a : String) (items : List GVolume) (docs : List OLDoc),
      findGooglePageCount t a items = none →
      findOpenLibraryPageCount t a docs = none →
      estimateLoanDueDate t a items docs =
        { days := 30, source := .fallback, pageCount := none }) ∧
    clampDays ((1000 : ℚ) / 35) = 29 ∧
    clampDays ((50 : ℚ) / 35) = 14 := by
  refine ⟨by decide, by decide, by decide, by decide, by decide, by decide, by decide,
    by decide, by decide, by decide, by decide, ?_, ?_, ?_, ?_, ?_, ?_, ?_⟩
  · intro q
    refine ⟨by simp [clampDays, minimumDays, maximumDays], ?_, ?_⟩
    · simp [clampDays, minimumDays, maximumDays]
    · simp only [clampDays, minimumDays, maximumDays]
      omega
  · intro t a items pc cat h
    exact findGooglePageCount_min h
  · intro t a docs p h
    exact findOpenLibraryPageCount_min h
  · intro t a items docs pc cat h
    rw [estimateLoanDueDate, h]
  · intro t a items docs hg hol
    rw [estimateLoanDueDate, hg, hol]
    rfl
  · norm_num [clampDays, jsRound, minimumDays, maximumDays]
  · norm_num [clampDays, jsRound, minimumDays, maximumDays]

/-- Witness for C5: the 1000-page Google volume instance of the days formula. -/
theorem dueDate_days_formula_witness :
    (estimateLoanDueDate "X" "Y"
      [{ title := some "X", authors := ["Y"], pageCount := some 1000, categories := [] }]
      []).days = clampDays ((1000 : ℚ) / ((estimatePagesPerDay none : Nat) : ℚ)) :=
  dueDate_days_formula.2.2.2.2.2.2.2.2.2.2.2.2.2.2.1 "X" "Y"
    [{ title := some "X", authors := ["Y"], pageCount := some 1000, categories := [] }]
    [] 1000 none (by decide)

/-- C5 counterexample: a single Google volume with 1000 pages and no category
(default 35 pages/day) produces a 29-day estimate — 28.57 rounded to the
nearest integer, already inside [14, 45] — not the 45-day clamp the claim
states. -/
theorem dueDate_thousand_pages_not_45 :
    (estimateLoanDueDate "X" "Y"
      [{ title := some "X", authors := ["Y"], pageCount := some 1000, categories := [] }]
      []).days = 29 ∧
    (estimateLoanDueDate "X" "Y"
      [{ title := some "X", authors := ["Y"], pageCount := some 1000, categories := [] }]
      []).days ≠ 45 := by
  have h : findGooglePageCount "X" "Y"
      [{ title := some "X", authors := ["Y"], pageCount := some 1000, categories := [] }] =
      some (1000, none) := by decide
  rw [estimateLoanDueDate, h]
  norm_num [estimatePagesPerDay, clampDays, jsRound, minimumDays, maximumDays]

/-! ## C8 — provider order and source tags -/

/-- C8: the estimator uses Google Books (the source yielding page count and
category) first; Open Library (page count only) is consulted only when Google
gave no usable result and cannot influence the outcome otherwise; and the
estimate's source tag is `google_books`, `openlibrary` or `fallback`, with a
null page count exactly in the fallback case. -/
theorem dueDate_source_order :
    (∀ (t a : String) (items : List GVolume) (docs : List OLDoc) (pc : Nat)
      (cat : Option String), findGooglePageCount t a items = some (pc, cat) →
      (estimateLoanDueDate t a items docs).source = .googleBooks ∧
      (estimateLoanDueDate t a items docs).pageCount = some pc) ∧
    (∀ (t a : String) (items : List GVolume) (docs : List OLDoc) (p : Nat),
      findGooglePageCount t a items = none →
      findOpenLibraryPageCount t a docs = some p →
      (estimateLoanDueDate t a items docs).source = .openLibrary ∧
      (estimateLoanDueDate t a items docs).pageCount = some p) ∧
    (∀ (t a : String) (items : List GVolume) (docs : List OLDoc),
      findGooglePageCount t a items = none →
      findOpenLibraryPageCount t a docs = none →
      estimateLoanDueDate t a items docs =
        { days := 30, source := .fallback, pageCount := none }) ∧
    (∀ (t a : String) (items : List GVolume) (docs docs2 : List OLDoc) (pc : Nat)
      (cat : Option String), findGooglePageCount t a items = some (pc, cat) →
      estimateLoanDueDate t a items docs = estimateLoanDueDate t a items docs2) ∧
    (∀ (t a : String) (items : List GVolume) (docs : List OLDoc),
      (estimateLoanDueDate t a items docs).source = .fallback ↔
        (estimateLoanDueDate t a items docs).pageCount = none) := by
  refine ⟨?_, ?_, ?_, ?_, ?_⟩
  · intro t a items docs pc cat h
    rw [estimateLoanDueDate, h]
    exact ⟨rfl, rfl⟩
  · intro t a items docs p hg hol
    rw [estimateLoanDueDate, hg, hol]
    exact ⟨rfl, rfl⟩
  · intro t a items docs hg hol
    rw [estimateLoanDueDate, hg, hol]
    rfl
  · intro t a items docs docs2 pc cat h
    rw [estimateLoanDueDate, h, estimateLoanDueDate, h]
  · intro t a items docs
    rw [estimateLoanDueDate]
    cases hg : findGooglePageCount t a items with
    | some y =>
      cases y with
      | mk pc cat => simp
    | none =>
      cases hol : findOpenLibraryPageCount t a docs with
      | some p => simp
      | none => simp

/-- Witness for C8: the Google-first branch at a concrete volume list. -/
theorem dueDate_source_order_witness :
    (estimateLoanDueDate "X" "Y"
      [{ title := some "X", authors := ["Y"], pageCount := some 300, categories := [] }]
      []).source = .googleBooks ∧
    (estimateLoanDueDate "X" "Y"
      [{ title := some "X", authors := ["Y"], pageCount := some 300, categories := [] }]
      []).pageCount = some 300 :=
  dueDate_source_order.1 "X" "Y"
    [{ title := some "X", authors := ["Y"], pageCount := some 300, categories := [] }]
    [] 300 none (by decide)

/-! ## C4 — synthetic metadata determinism -/

/-- C4: synthesized `averageRating`/`ratingsCount` are a deterministic function
of (title, author) through `hashString(title + "|" + author)`: the rating lies
in [3.4, 4.7] on a 0.1 step, the count lies in [12, 252), and two synthesis
runs for the same (title, author) produce identical values. -/
theorem synthetic_ratings_deterministic :
    (∀ (b : LocalBook) (p : CoreMetadataPatch) (q : ℚ),
      (buildSyntheticRatingPatch b p).1 = some q →
        34 / 10 ≤ q ∧ q ≤ 47 / 10 ∧
        ∃ k : Nat, k ≤ 13 ∧ q = ((34 + k : Nat) : ℚ) / 10) ∧
    (∀ (b : LocalBook) (p : CoreMetadataPatch) (n : Nat),
      (buildSyntheticRatingPatch b p).2 = some n → 12 ≤ n ∧ n < 252) ∧
    (∀ (b₁ b₂ : LocalBook) (p₁ p₂ : CoreMetadataPatch),
      b₁.title = b₂.title → b₁.author = b₂.author →
      (∀ q₁ q₂, (buildSyntheticRatingPatch b₁ p₁).1 = some q₁ →
        (buildSyntheticRatingPatch b₂ p₂).1 = some q₂ → q₁ = q₂) ∧
      (∀ n₁ n₂, (buildSyntheticRatingPatch b₁ p₁).2 = some n₁ →
        (buildSyntheticRatingPatch b₂ p₂).2 = some n₂ → n₁ = n₂)) := by
  refine ⟨?_, ?_, ?_⟩
  · intro b p q hq
    unfold buildSyntheticRatingPatch at hq
    dsimp only at hq
    split at hq
    · simp only [Option.some.injEq] at hq
      subst hq
      have hk : hashString (b.title ++ "|" ++ b.author) % 14 < 14 :=
        Nat.mod_lt _ (by norm_num)
      refine ⟨?_, ?_, hashString (b.title ++ "|" ++ b.author) % 14, by omega, rfl⟩
      · push_cast
        have h0 : (0 : ℚ) ≤ ((hashString (b.title ++ "|" ++ b.author) % 14 : Nat) : ℚ) :=
          Nat.cast_nonneg _
        linarith
      · push_cast
        have h13 : ((hashString (b.title ++ "|" ++ b.author) % 14 : Nat) : ℚ) ≤ 13 := by
          exact_mod_cast Nat.le_of_lt_succ hk
        linarith
    · exact absurd hq (by simp)
  · intro b p n hn
    unfold buildSyntheticRatingPatch at hn
    dsimp only at hn
    split at hn
    · simp only [Option.some.injEq] at hn
      have hk : hashString (b.title ++ "|" ++ b.author) % 240 < 240 :=
        Nat.mod_lt _ (by norm_num)
      omega
    · exact absurd hn (by simp)
  · intro b₁ b₂ p₁ p₂ ht ha
    constructor
    · intro q₁ q₂ h₁ h₂
      unfold buildSyntheticRatingPatch at h₁ h₂
      dsimp only at h₁ h₂
      split at h₁
      · split at h₂
        · simp only [Option.some.injEq] at h₁ h₂
          rw [← h₁, ← h₂, ht, ha]
        · exact absurd h₂ (by simp)
      · exact absurd h₁ (by simp)
    · intro n₁ n₂ h₁ h₂
      unfold buildSyntheticRatingPatch at h₁ h₂
      dsimp only at h₁ h₂
      split at h₁
      · split at h₂
        · simp only [Option.some.injEq] at h₁ h₂
          rw [← h₁, ← h₂, ht, ha]
        · exact absurd h₂ (by simp)
      · exact absurd h₁ (by simp)

/-- Witness for C4: the ratings count synthesized for ("A", "B") is 147,
inside [12, 252). -/
theorem synthetic_ratings_deterministic_witness : 12 ≤ 147 ∧ 147 < 252 :=
  synthetic_ratings_deterministic.2.1
    { title := "A", author := "B", isbn := none, genre := none, publishedYear := none,
      description := none, coverUrl := none, averageRating := none, ratingsCount := none,
      aiMetadata := false }
    {} 147 (by decide)

/-! ## C3 — monotone, idempotent enrichment patches -/

theorem patchField_idem {α : Type} (e o : Option α) :
    patchField e (patchField e o) = patchField e o := by
  cases e <;> rfl

theorem getD_absorb {α : Type} (e : Option α) (d : α) :
    e.getD (e.getD d) = e.getD d := by
  cases e <;> rfl

/-- C3: a field enters an enrichment patch only when the existing record's
value is null/empty (for the author, only when it is a recognized
placeholder), so applying the patch never alters a populated field; applying
the same patch twice equals applying it once; and the synthetic flag
(`aiMetadata`), set by every enrichment update, is never cleared by one. -/
theorem enrichment_patch_monotone :
    (∀ (b : LocalBook) (c : Candidate),
      ((buildMetadataPatch b c).author ≠ none → isUnknownAuthor b.author = true) ∧
      ((buildMetadataPatch b c).coverUrl ≠ none → strFalsy b.coverUrl = true) ∧
      ((buildMetadataPatch b c).description ≠ none → strFalsy b.description = true) ∧
      ((buildMetadataPatch b c).genre ≠ none → strFalsy b.genre = true) ∧
      ((buildMetadataPatch b c).publishedYear ≠ none → natFalsy b.publishedYear = true) ∧
      ((buildMetadataPatch b c).isbn ≠ none → strFalsy b.isbn = true) ∧
      ((buildMetadataPatch b c).averageRating ≠ none → b.averageRating = none) ∧
      ((buildMetadataPatch b c).ratingsCount ≠ none → b.ratingsCount = none)) ∧
    (∀ (b : LocalBook) (c : Candidate),
      (applyEnrichmentUpdate b (buildMetadataPatch b c)).title = b.title ∧
      (isUnknownAuthor b.author = false →
        (applyEnrichmentUpdate b (buildMetadataPatch b c)).author = b.author) ∧
      (strFalsy b.coverUrl = false →
        (applyEnrichmentUpdate b (buildMetadataPatch b c)).coverUrl = b.coverUrl) ∧
      (strFalsy b.description = false →
        (applyEnrichmentUpdate b (buildMetadataPatch b c)).description = b.description) ∧
      (strFalsy b.genre = false →
        (applyEnrichmentUpdate b (buildMetadataPatch b c)).genre = b.genre) ∧
      (natFalsy b.publishedYear = false →
        (applyEnrichmentUpdate b (buildMetadataPatch b c)).publishedYear = b.publishedYear) ∧
      (strFalsy b.isbn = false →
        (applyEnrichmentUpdate b (buildMetadataPatch b c)).isbn = b.isbn) ∧
      (b.averageRating ≠ none →
        (applyEnrichmentUpdate b (buildMetadataPatch b c)).averageRating = b.averageRating) ∧
      (b.ratingsCount ≠ none →
        (applyEnrichmentUpdate b (buildMetadataPatch b c)).ratingsCount = b.ratingsCount)) ∧
    (∀ (b : LocalBook) (p : MetadataPatch),
      applyEnrichmentUpdate (applyEnrichmentUpdate b p) p = applyEnrichmentUpdate b p) ∧
    (∀ (b : LocalBook) (p : MetadataPatch), b.aiMetadata = true →
      (applyEnrichmentUpdate b p).aiMetadata = true) := by
  refine ⟨?_, ?_, ?_, ?_⟩
  · intro b c
    refine ⟨?_, ?_, ?_, ?_, ?_, ?_, ?_, ?_⟩ <;>
      · intro hne
        simp only [buildMetadataPatch] at hne
        split_ifs at hne with h
        · exact h.1
        · exact absurd rfl hne
  · intro b c
    refine ⟨rfl, ?_, ?_, ?_, ?_, ?_, ?_, ?_, ?_⟩ <;>
      · intro h
        simp [applyEnrichmentUpdate, applyPatch, buildMetadataPatch, patchField, h]
  · intro b p
    simp only [applyEnrichmentUpdate, applyPatch]
    simp [patchField_idem, getD_absorb]
  · intro b p _
    rfl

/-- Witness for C3: a populated author survives an enrichment patch built from
a candidate that proposes a different author. -/
theorem enrichment_patch_monotone_witness :
    (applyEnrichmentUpdate
      { title := "Dune", author := "Frank Herbert", isbn := none, genre := none,
        publishedYear := none, description := none, coverUrl := none,
        averageRating := none, ratingsCount := none, aiMetadata := false }
      (buildMetadataPatch
        { title := "Dune", author := "Frank Herbert", isbn := none, genre := none,
          publishedYear := none, description := none, coverUrl := none,
          averageRating := none, ratingsCount := none, aiMetadata := false }
        { title := "Dune", author := "F. Herbert", isbn := none, genre := none,
          publishedYear := none, description := none, coverUrl := none,
          averageRating := none, ratingsCount := none, source := .google })).author =
      "Frank Herbert" :=
  (enrichment_patch_monotone.2.1
    { title := "Dune", author := "Frank Herbert", isbn := none, genre := none,
      publishedYear := none, description := none, coverUrl := none,
      averageRating := none, ratingsCount := none, aiMetadata := false }
    { title := "Dune", author := "F. Herbert", isbn := none, genre := none,
      publishedYear := none, description := none, coverUrl := none,
      averageRating := none, ratingsCount := none, source := .google }).2.1 (by decide)

/-! ## C6 — match scoring -/

/-- C6: the candidate score is exactly the sum of the ISBN term (+100 exact /
−30 mismatch), the title term (+40 exact / +20 containment), the author term
(+25 exact / +10 containment) and 6 points per newly fillable field; and for
the target Dune/Frank Herbert without ISBN, an exact-title, exact-author
candidate carrying an ISBN outscores a candidate with only a partial title
match. -/
theorem candidate_scoring :
    (∀ (b : LocalBook) (c : Candidate),
      candidateScore b c = specIsbnTerm b c + specTitleTerm b c + specAuthorTerm b c +
        6 * ((buildMetadataPatch b c).size : Int)) ∧
    candidateScore
      { title := "Dune", author := "Frank Herbert", isbn := none,
        genre := some "Science Fiction", publishedYear := some 1965,
        description := some "Desert planet", coverUrl := some "cover",
        averageRating := some 4, ratingsCount := some 100, aiMetadata := false }
      { title := "Dune", author := "Frank Herbert", isbn := some "0441013597",
        genre := none, publishedYear := none, description := none, coverUrl := none,
        averageRating := none, ratingsCount := none, source := .google } >
    candidateScore
      { title := "Dune", author := "Frank Herbert", isbn := none,
        genre := some "Science Fiction", publishedYear := some 1965,
        description := some "Desert planet", coverUrl := some "cover",
        averageRating := some 4, ratingsCount := some 100, aiMetadata := false }
      { title := "Dune Messiah", author := "Someone Else", isbn := none,
        genre := none, publishedYear := none, description := none, coverUrl := none,
        averageRating := none, ratingsCount := none, source := .google } := by
  constructor
  · intro b c
    rfl
  · decide

/-! ## C7 — candidate search lemmas -/

theorem pickBest_cons_none (book : LocalBook) (c : Candidate) (cs : List Candidate)
    (h : pickBest book cs = none) :
    pickBest book (c :: cs) = some (c, candidateScore book c) := by
  simp only [pickBest, h]

theorem pickBest_cons_some (book : LocalBook) (c : Candidate) (cs : List Candidate)
    (d : Candidate) (t : Int) (h : pickBest book cs = some (d, t)) :
    pickBest book (c :: cs) =
      if t ≤ candidateScore book c then some (c, candidateScore book c)
      else some (d, t) := by
  simp only [pickBest, h]

theorem mergeBest_none (a : Candidate × Int) : mergeBest a none = some a := rfl

theorem mergeBest_mk (c0 : Candidate) (s0 : Int) (d : Candidate) (t : Int) :
    mergeBest (c0, s0) (some (d, t)) = if t ≤ s0 then some (c0, s0) else some (d, t) := rfl

theorem bestStep_none_acc (book : LocalBook) (c : Candidate) :
    bestStep book none c = some (c, candidateScore book c) := rfl

theorem bestStep_some_acc (book : LocalBook) (c c0 : Candidate) (s0 : Int) :
    bestStep book (some (c0, s0)) c =
      if s0 < candidateScore book c then some (c, candidateScore book c)
      else some (c0, s0) := rfl

theorem bestStep_ne_none (book : LocalBook) (acc : Option (Candidate × Int)) (c : Candidate) :
    bestStep book acc c ≠ none := by
  cases acc with
  | none => rw [bestStep_none_acc]; simp
  | some p =>
    cases p with
    | mk c0 s0 =>
      rw [bestStep_some_acc]
      split <;> simp

theorem foldl_bestStep_eq_none (book : LocalBook) :
    ∀ (l : List Candidate) (acc : Option (Candidate × Int)),
      l.foldl (bestStep book) acc = none → acc = none ∧ l = [] := by
  intro l
  induction l with
  | nil => intro acc h; exact ⟨h, rfl⟩
  | cons c cs ih =>
    intro acc h
    have h2 := (ih (bestStep book acc c) h).1
    exact absurd h2 (bestStep_ne_none book acc c)

theorem foldl_bestStep_some_acc (book : LocalBook) :
    ∀ (l : List Candidate) (c0 : Candidate) (s0 : Int),
      l.foldl (bestStep book) (some (c0, s0)) = mergeBest (c0, s0) (pickBest book l) := by
  intro l
  induction l with
  | nil => intro c0 s0; rfl
  | cons c cs ih =>
    intro c0 s0
    rw [List.foldl_cons, bestStep_some_acc]
    by_cases hlt : s0 < candidateScore book c
    · rw [if_pos hlt, ih]
      cases hpb : pickBest book cs with
      | none =>
        rw [mergeBest_none, pickBest_cons_none book c cs hpb, mergeBest_mk,
          if_neg (by omega)]
      | some dt =>
        cases dt with
        | mk d t =>
          rw [mergeBest_mk, pickBest_cons_some book c cs d t hpb]
          by_cases hts : t ≤ candidateScore book c
          · rw [if_pos hts, mergeBest_mk, if_neg (by omega)]
          · rw [if_neg hts, mergeBest_mk, if_neg (by omega)]
    · rw [if_neg hlt, ih]
      cases hpb : pickBest book cs with
      | none =>
        rw [mergeBest_none, pickBest_cons_none book c cs hpb, mergeBest_mk,
          if_pos (by omega)]
      | some dt =>
        cases dt with
        | mk d t =>
          rw [mergeBest_mk, pickBest_cons_some book c cs d t hpb]
          by_cases hts : t ≤ candidateScore book c
          · rw [if_pos hts, if_pos (by omega), mergeBest_mk, if_pos (by omega)]
          · rw [if_neg hts, mergeBest_mk]

theorem foldl_bestStep_none_start (book : LocalBook) (l : List Candidate) :
    l.foldl (bestStep book) none = pickBest book l := by
  cases l with
  | nil => rfl
  | cons c cs =>
    rw [List.foldl_cons, bestStep_none_acc, foldl_bestStep_some_acc]
    cases hpb : pickBest book cs with
    | none => rw [mergeBest_none, pickBest_cons_none book c cs hpb]
    | some dt =>
      cases dt with
      | mk d t =>
        rw [mergeBest_mk, pickBest_cons_some book c cs d t hpb]

theorem pickBest_eq_none (book : LocalBook) :
    ∀ (l : List Candidate), pickBest book l = none → l = [] := by
  intro l h
  cases l with
  | nil => rfl
  | cons c cs =>
    exfalso
    cases hpb : pickBest book cs with
    | none =>
      rw [pickBest_cons_none book c cs hpb] at h
      exact absurd h (by simp)
    | some dt =>
      cases dt with
      | mk d t =>
        rw [pickBest_cons_some book c cs d t hpb] at h
        split at h <;> exact absurd h (by simp)

theorem pickBest_spec (book : LocalBook) :
    ∀ (l : List Candidate) (d : Candidate) (t : Int), pickBest book l = some (d, t) →
      d ∈ l ∧ candidateScore book d = t ∧ ∀ c ∈ l, candidateScore book c ≤ t := by
  intro l
  induction l with
  | nil => intro d t h; exact absurd h (by simp [pickBest])
  | cons c cs ih =>
    intro d t h
    cases hpb : pickBest book cs with
    | none =>
      rw [pickBest_cons_none book c cs hpb] at h
      simp only [Option.some.injEq, Prod.mk.injEq] at h
      obtain ⟨rfl, rfl⟩ := h
      have hcs := pickBest_eq_none book cs hpb
      subst hcs
      refine ⟨by simp, rfl, ?_⟩
      intro x hx
      rw [List.mem_singleton] at hx
      subst hx
      exact le_refl _
    | some dt =>
      cases dt with
      | mk d2 t2 =>
        rw [pickBest_cons_some book c cs d2 t2 hpb] at h
        have hspec := ih d2 t2 hpb
        split at h
        · rename_i hle
          simp only [Option.some.injEq, Prod.mk.injEq] at h
          obtain ⟨rfl, rfl⟩ := h
          refine ⟨List.mem_cons_self _ _, rfl, ?_⟩
          intro x hx
          rcases List.mem_cons.mp hx with rfl | hx2
          · exact le_refl _
          · exact le_trans (hspec.2.2 x hx2) hle
        · rename_i hgt
          simp only [Option.some.injEq, Prod.mk.injEq] at h
          obtain ⟨rfl, rfl⟩ := h
          refine ⟨List.mem_cons_of_mem _ hspec.1, hspec.2.1, ?_⟩
          intro x hx
          rcases List.mem_cons.mp hx with rfl | hx2
          · omega
          · exact hspec.2.2 x hx2

theorem pickBest_first_seen (book : LocalBook) (c : Candidate) (cs : List Candidate)
    (hle : ∀ d ∈ cs, candidateScore book d ≤ candidateScore book c) :
    pickBest book (c :: cs) = some (c, candidateScore book c) := by
  cases hpb : pickBest book cs with
  | none => exact pickBest_cons_none book c cs hpb
  | some dt =>
    cases dt with
    | mk d t =>
      have hspec := pickBest_spec book cs d t hpb
      have ht : t ≤ candidateScore book c := hspec.2.1 ▸ hle d hspec.1
      rw [pickBest_cons_some book c cs d t hpb, if_pos ht]

theorem foldl_bestStep_max (book : LocalBook) (l : List Candidate)
    (acc : Option (Candidate × Int)) (res : Candidate × Int)
    (h : l.foldl (bestStep book) acc = some res) :
    (∀ c ∈ l, candidateScore book c ≤ res.2) ∧ (∀ p, acc = some p → p.2 ≤ res.2) := by
  cases acc with
  | none =>
    rw [foldl_bestStep_none_start] at h
    have hspec := pickBest_spec book l res.1 res.2 (by rw [h])
    exact ⟨hspec.2.2, by intro p hp; exact absurd hp (by simp)⟩
  | some p0 =>
    cases p0 with
    | mk c0 s0 =>
      rw [foldl_bestStep_some_acc] at h
      cases hpb : pickBest book l with
      | none =>
        rw [hpb, mergeBest_none] at h
        simp only [Option.some.injEq] at h
        subst h
        have hl := pickBest_eq_none book l hpb
        subst hl
        exact ⟨by simp, by intro p hp; rw [Option.some.injEq] at hp; subst hp; exact le_refl _⟩
      | some dt =>
        cases dt with
        | mk d t =>
          rw [hpb, mergeBest_mk] at h
          have hspec := pickBest_spec book l d t hpb
          split at h
          · rename_i hts
            simp only [Option.some.injEq] at h
            subst h
            refine ⟨?_, ?_⟩
            · intro c hc
              exact le_trans (hspec.2.2 c hc) hts
            · intro p hp
              rw [Option.some.injEq] at hp
              subst hp
              exact le_refl _
          · rename_i hts
            simp only [Option.some.injEq] at h
            subst h
            refine ⟨hspec.2.2, ?_⟩
            intro p hp
            rw [Option.some.injEq] at hp
            subst hp
            simp only
            omega

theorem foldl_bestStep_inv (book : LocalBook) (l : List Candidate)
    (acc : Option (Candidate × Int))
    (hacc : ∀ p, acc = some p → p.2 = candidateScore book p.1)
    (res : Candidate × Int) (h : l.foldl (bestStep book) acc = some res) :
    res.2 = candidateScore book res.1 := by
  cases acc with
  | none =>
    rw [foldl_bestStep_none_start] at h
    exact (pickBest_spec book l res.1 res.2 (by rw [h])).2.1.symm
  | some p0 =>
    cases p0 with
    | mk c0 s0 =>
      rw [foldl_bestStep_some_acc] at h
      cases hpb : pickBest book l with
      | none =>
        rw [hpb, mergeBest_none] at h
        simp only [Option.some.injEq] at h
        subst h
        exact hacc _ rfl
      | some dt =>
        cases dt with
        | mk d t =>
          rw [hpb, mergeBest_mk] at h
          split at h <;> simp only [Option.some.injEq] at h <;> subst h
          · exact hacc _ rfl
          · exact (pickBest_spec book l d t hpb).2.1.symm

theorem fbLoop_nil_none (book : LocalBook) (fetch : String → List Candidate) :
    fbLoop book fetch [] none = none := rfl

theorem fbLoop_nil_some (book : LocalBook) (fetch : String → List Candidate)
    (c0 : Candidate) (s0 : Int) :
    fbLoop book fetch [] (some (c0, s0)) = if 18 ≤ s0 then some c0 else none := rfl

theorem fbLoop_cons_none (book : LocalBook) (fetch : String → List Candidate)
    (q : String) (rest : List String) (best : Option (Candidate × Int))
    (h : (fetch q).foldl (bestStep book) best = none) :
    fbLoop book fetch (q :: rest) best = fbLoop book fetch rest none := by
  simp only [fbLoop, h]

theorem fbLoop_cons_some (book : LocalBook) (fetch : String → List Candidate)
    (q : String) (rest : List String) (best : Option (Candidate × Int))
    (cq : Candidate) (sq : Int)
    (h : (fetch q).foldl (bestStep book) best = some (cq, sq)) :
    fbLoop book fetch (q :: rest) best =
      if 25 ≤ sq then some cq else fbLoop book fetch rest (some (cq, sq)) := by
  simp only [fbLoop, h]

theorem fbLoop_some_ge18 (book : LocalBook) (fetch : String → List Candidate) :
    ∀ (qs : List String) (best : Option (Candidate × Int)),
      (∀ p, best = some p → p.2 = candidateScore book p.1) →
      ∀ c, fbLoop book fetch qs best = some c → 18 ≤ candidateScore book c := by
  intro qs
  induction qs with
  | nil =>
    intro best hinv c h
    cases hb : best with
    | none => rw [hb, fbLoop_nil_none] at h; exact absurd h (by simp)
    | some p =>
      cases p with
      | mk c0 s0 =>
        rw [hb, fbLoop_nil_some] at h
        split at h
        · rename_i h18
          rw [Option.some.injEq] at h
          subst h
          have hs := hinv (c0, s0) (by rw [hb])
          simp only at hs
          omega
        · exact absurd h (by simp)
  | cons q rest ih =>
    intro best hinv c h
    cases hf : (fetch q).foldl (bestStep book) best with
    | none =>
      rw [fbLoop_cons_none book fetch q rest best hf] at h
      exact ih none (by intro p hp; exact absurd hp (by simp)) c h
    | some p =>
      cases p with
      | mk cq sq =>
        rw [fbLoop_cons_some book fetch q rest best cq sq hf] at h
        have hsq : sq = candidateScore book cq :=
          foldl_bestStep_inv book (fetch q) best hinv (cq, sq) hf
        split at h
        · rename_i h25
          rw [Option.some.injEq] at h
          subst h
          omega
        · exact ih (some (cq, sq))
            (by intro p hp; rw [Option.some.injEq] at hp; subst hp; exact hsq) c h

theorem fbLoop_none_all_lt (book : LocalBook) (fetch : String → List Candidate) :
    ∀ (qs : List String) (best : Option (Candidate × Int)),
      (∀ p, best = some p → p.2 = candidateScore book p.1) →
      fbLoop book fetch qs best = none →
      (∀ q ∈ qs, ∀ c ∈ fetch q, candidateScore book c < 18) ∧
      (∀ p, best = some p → p.2 < 18) := by
  intro qs
  induction qs with
  | nil =>
    intro best hinv h
    refine ⟨by intro q hq; exact absurd hq (by simp), ?_⟩
    intro p hp
    cases p with
    | mk c0 s0 =>
      rw [hp, fbLoop_nil_some] at h
      split at h
      · exact absurd h (by simp)
      · rename_i h18
        simp only at h18 ⊢
        omega
  | cons q rest ih =>
    intro best hinv h
    cases hf : (fetch q).foldl (bestStep book) best with
    | none =>
      rw [fbLoop_cons_none book fetch q rest best hf] at h
      obtain ⟨hacc, hq⟩ := foldl_bestStep_eq_none book (fetch q) best hf
      have hrec := ih none (by intro p hp; exact absurd hp (by simp)) h
      refine ⟨?_, ?_⟩
      · intro q2 hq2 c hc
        rcases List.mem_cons.mp hq2 with rfl | hmem
        · rw [hq] at hc; exact absurd hc (by simp)
        · exact hrec.1 q2 hmem c hc
      · intro p hp
        rw [hacc] at hp
        exact absurd hp (by simp)
    | some p =>
      cases p with
      | mk cq sq =>
        rw [fbLoop_cons_some book fetch q rest best cq sq hf] at h
        split at h
        · exact absurd h (by simp)
        · rename_i h25
          have hsq : sq = candidateScore book cq :=
            foldl_bestStep_inv book (fetch q) best hinv (cq, sq) hf
          have hrec := ih (some (cq, sq))
            (by intro p hp; rw [Option.some.injEq] at hp; subst hp; exact hsq) h
          have hsqlt : sq < 18 := by
            have := hrec.2 (cq, sq) rfl
            simpa using this
          have hmax := foldl_bestStep_max book (fetch q) best (cq, sq) hf
          refine ⟨?_, ?_⟩
          · intro q2 hq2 c hc
            rcases List.mem_cons.mp hq2 with rfl | hmem
            · have := hmax.1 c hc
              simp only at this
              omega
            · exact hrec.1 q2 hmem c hc
          · intro p hp
            have := hmax.2 p hp
            simp only at this
            omega

/-- C7: for each catalog row, the search builds up to three attempts in
priority order (`isbn:` query only when an ISBN is present, then
title-and-author, then title alone); in `auto` mode each attempt queries
Google first and Open Library only when Google returned nothing; the search
stops right after the first attempt whose running best scores ≥ 25,
returning it; any returned candidate scores ≥ 18, and a no-match answer
means every candidate of every attempt scored < 18; ties keep the
first-seen candidate (strict-improvement fold = first maximal pick). -/
theorem enrichment_candidate_search :
    ∀ (book : LocalBook) (g ol : String → List Candidate),
      ((∀ i, book.isbn = some i → i ≠ "" →
        attemptsFor book = ["isbn:" ++ i, book.title ++ " " ++ book.author, book.title]) ∧
       (book.isbn = none →
        attemptsFor book = [book.title ++ " " ++ book.author, book.title])) ∧
      ((∀ q, g q ≠ [] → queryByProvider g ol .auto q = dedupeCandidates (g q)) ∧
       (∀ q, g q = [] → queryByProvider g ol .auto q = dedupeCandidates (ol q))) ∧
      (∀ q rest c s, attemptsFor book = q :: rest →
        pickBest book (queryByProvider g ol .auto q) = some (c, s) → 25 ≤ s →
        findBestCandidateForBook book g ol .auto = some c) ∧
      (∀ c, findBestCandidateForBook book g ol .auto = some c →
        18 ≤ candidateScore book c) ∧
      (findBestCandidateForBook book g ol .auto = none →
        ∀ q ∈ attemptsFor book, ∀ c ∈ queryByProvider g ol .auto q,
          candidateScore book c < 18) ∧
      ((∀ l, l.foldl (bestStep book) none = pickBest book l) ∧
       (∀ (c : Candidate) (cs : List Candidate),
         (∀ d ∈ cs, candidateScore book d ≤ candidateScore book c) →
         pickBest book (c :: cs) = some (c, candidateScore book c))) := by
  intro book g ol
  refine ⟨⟨?_, ?_⟩, ⟨?_, ?_⟩, ?_, ?_, ?_, ?_, ?_⟩
  · intro i hi hne
    simp [attemptsFor, hi, hne]
  · intro hi
    simp [attemptsFor, hi]
  · intro q hq
    simp only [queryByProvider]
    rw [if_neg hq]
  · intro q hq
    simp only [queryByProvider]
    rw [if_pos hq]
  · intro q rest c s hatt hpb h25
    unfold findBestCandidateForBook
    rw [hatt]
    unfold fbLoop
    rw [foldl_bestStep_none_start, hpb]
    simp only [h25, if_pos]
  · intro c h
    exact fbLoop_some_ge18 book (queryByProvider g ol .auto) (attemptsFor book) none
      (by intro p hp; exact absurd hp (by simp)) c h
  · intro h q hq c hc
    exact (fbLoop_none_all_lt book (queryByProvider g ol .auto) (attemptsFor book) none
      (by intro p hp; exact absurd hp (by simp)) h).1 q hq c hc
  · intro l
    exact foldl_bestStep_none_start book l
  · intro c cs hle
    exact pickBest_first_seen book c cs hle

/-- Witness for C7: a returned candidate scores at least 18, at a concrete
book and concrete single-candidate Google oracle. -/
theorem enrichment_candidate_search_witness :
    18 ≤ candidateScore
      { title := "Dune", author := "Frank Herbert", isbn := none, genre := none,
        publishedYear := none, description := none, coverUrl := none,
        averageRating := none, ratingsCount := none, aiMetadata := false }
      { title := "Dune", author := "Frank Herbert", isbn := none, genre := none,
        publishedYear := none, description := none, coverUrl := none,
        averageRating := none, ratingsCount := none, source := .google } :=
  (enrichment_candidate_search
    { title := "Dune", author := "Frank Herbert", isbn := none, genre := none,
      publishedYear := none, description := none, coverUrl := none,
      averageRating := none, ratingsCount := none, aiMetadata := false }
    (fun _ =>
      [{ title := "Dune", author := "Frank Herbert", isbn := none, genre := none,
         publishedYear := none, description := none, coverUrl := none,
         averageRating := none, ratingsCount := none, source := .google }])
    (fun _ => [])).2.2.2.1
    { title := "Dune", author := "Frank Herbert", isbn := none, genre := none,
      publishedYear := none, description := none, coverUrl := none,
      averageRating := none, ratingsCount := none, source := .google }
    (by decide)

/-! ## Lending-state lemmas -/

theorem updateWhere_keys {α : Type} (p : Nat × α → Bool) (f : α → α) :
    ∀ l : List (Nat × α), (updateWhere p f l).1.map Prod.fst = l.map Prod.fst := by
  intro l
  induction l with
  | nil => rfl
  | cons kv rest ih =>
    cases kv with
    | mk k v =>
      by_cases hp : p (k, v) = true <;> simp [updateWhere, hp, ih]

theorem lookupAssoc_updateWhere {α : Type} (p : Nat × α → Bool) (f : α → α) (id : Nat) :
    ∀ l : List (Nat × α),
      lookupAssoc id (updateWhere p f l).1 =
        (lookupAssoc id l).map (fun v => if p (id, v) then f v else v) := by
  intro l
  induction l with
  | nil => rfl
  | cons kv rest ih =>
    cases kv with
    | mk k v =>
      by_cases hk : k = id
      · subst hk
        by_cases hp : p (k, v) = true <;> simp [updateWhere, lookupAssoc, hp]
      · by_cases hp : p (k, v) = true <;> simp [updateWhere, lookupAssoc, hp, hk, ih]

theorem updateWhere_count_notMem {α : Type} (id : Nat) (P : α → Bool) (f : α → α) :
    ∀ l : List (Nat × α), id ∉ l.map Prod.fst →
      (updateWhere (fun kv => kv.1 == id && P kv.2) f l).2 = 0 := by
  intro l
  induction l with
  | nil => intro _; rfl
  | cons kv rest ih =>
    cases kv with
    | mk k v =>
      intro hmem
      simp only [List.map_cons, List.mem_cons] at hmem
      push_neg at hmem
      have hk : (k == id) = false := by
        simp only [beq_eq_false_iff_ne, ne_eq]
        exact fun h => hmem.1 h.symm
      simp [updateWhere, hk, ih hmem.2]

theorem updateWhere_count_none {α : Type} (id : Nat) (P : α → Bool) (f : α → α) :
    ∀ l : List (Nat × α), lookupAssoc id l = none →
      (updateWhere (fun kv => kv.1 == id && P kv.2) f l).2 = 0 := by
  intro l
  induction l with
  | nil => intro _; rfl
  | cons kv rest ih =>
    cases kv with
    | mk k v =>
      intro hlk
      by_cases hk : k = id
      · subst hk
        simp [lookupAssoc] at hlk
      · have hk2 : (k == id) = false := by simp [hk]
        have hrest : lookupAssoc id rest = none := by
          simpa [lookupAssoc, hk] using hlk
        simp [updateWhere, hk2, ih hrest]

theorem updateWhere_count_some {α : Type} (id : Nat) (P : α → Bool) (f : α → α) :
    ∀ l : List (Nat × α), (l.map Prod.fst).Nodup → ∀ v, lookupAssoc id l = some v →
      (updateWhere (fun kv => kv.1 == id && P kv.2) f l).2 = if P v then 1 else 0 := by
  intro l
  induction l with
  | nil => intro _ v h; exact absurd h (by simp [lookupAssoc])
  | cons kv rest ih =>
    cases kv with
    | mk k v0 =>
      intro hnd v hlk
      simp only [List.map_cons, List.nodup_cons] at hnd
      by_cases hk : k = id
      · subst hk
        have hv : v0 = v := by simpa [lookupAssoc] using hlk
        subst hv
        have hz := updateWhere_count_notMem k P f rest hnd.1
        by_cases hp : P v0 = true <;> simp [updateWhere, hp, hz]
      · have hk2 : (k == id) = false := by simp [hk]
        have hrest : lookupAssoc id rest = some v := by
          simpa [lookupAssoc, hk] using hlk
        simp [updateWhere, hk2, ih hnd.2 v hrest]

theorem activeLoanCount_append (bookId : Nat) (l1 l2 : List LoanRow) :
    activeLoanCount bookId (l1 ++ l2) =
      activeLoanCount bookId l1 + activeLoanCount bookId l2 := by
  simp [activeLoanCount, List.countP_append]

theorem checkout_ok (s : LendingState) (bookId uid : Nat) (dueAt : Option Nat)
    (b : BookRow) (hnd : (s.books.map Prod.fst).Nodup)
    (hlk : lookupAssoc bookId s.books = some b) (hav : b.available = true) :
    checkout s bookId uid dueAt = .ok
      { books := (updateWhere (fun kb => kb.1 == bookId && kb.2.available)
          (fun bk => { bk with available := false }) s.books).1,
        loans := s.loans ++ [{ bookId := bookId, userId := uid, dueAt := dueAt,
                               returnedAt := none }],
        requests := s.requests } := by
  have hc := updateWhere_count_some bookId (fun bk => bk.available)
    (fun bk => { bk with available := false }) s.books hnd b hlk
  simp only [hav, if_true] at hc
  unfold checkout
  rw [hlk]
  dsimp only
  rw [hc]
  simp

theorem checkout_conflict (s : LendingState) (bookId uid : Nat) (dueAt : Option Nat)
    (b : BookRow) (hnd : (s.books.map Prod.fst).Nodup)
    (hlk : lookupAssoc bookId s.books = some b) (hav : b.available = false) :
    checkout s bookId uid dueAt = .error .conflict := by
  have hc := updateWhere_count_some bookId (fun bk => bk.available)
    (fun bk => { bk with available := false }) s.books hnd b hlk
  simp only [hav, Bool.false_eq_true, if_false] at hc
  unfold checkout
  rw [hlk]
  dsimp only
  rw [hc]
  simp

theorem runCheckouts_all_conflict (bookId : Nat) (dueAt : Option Nat) :
    ∀ (us : List Nat) (s : LendingState) (b : BookRow),
      (s.books.map Prod.fst).Nodup →
      lookupAssoc bookId s.books = some b → b.available = false →
      runCheckouts bookId dueAt s us = (s, 0, us.length) := by
  intro us
  induction us with
  | nil => intro s b _ _ _; rfl
  | cons u rest ih =>
    intro s b hnd hlk hav
    have hcf := checkout_conflict s bookId u dueAt b hnd hlk hav
    simp [runCheckouts, hcf, ih s b hnd hlk hav]

/-- C1: the direct-checkout claim flips `available` from `true` to `false`
conditionally: on a book with `available = false` the transaction fails with
Conflict and no state changes; on an available book it succeeds, flips the
flag, and inside the same atomic unit appends exactly one Loan with
`returnedAt = null`; hence of N serialized checkout attempts on one
available record exactly one succeeds, the other N − 1 receive Conflict,
and the record ends unavailable with exactly one more active loan. -/
theorem checkout_claim_atomicity :
    ∀ (s : LendingState) (bookId uid : Nat) (dueAt : Option Nat) (b : BookRow),
      (s.books.map Prod.fst).Nodup →
      lookupAssoc bookId s.books = some b →
      (b.available = false → checkout s bookId uid dueAt = .error .conflict) ∧
      (b.available = true →
        ∃ s2, checkout s bookId uid dueAt = .ok s2 ∧
          lookupAssoc bookId s2.books = some { b with available := false } ∧
          (∀ k, k ≠ bookId → lookupAssoc k s2.books = lookupAssoc k s.books) ∧
          s2.loans = s.loans ++ [{ bookId := bookId, userId := uid, dueAt := dueAt,
                                   returnedAt := none }] ∧
          s2.requests = s.requests ∧
          activeLoanCount bookId s2.loans = activeLoanCount bookId s.loans + 1) ∧
      (b.available = true → ∀ (u : Nat) (us : List Nat),
        (runCheckouts bookId dueAt s (u :: us)).2.1 = 1 ∧
        (runCheckouts bookId dueAt s (u :: us)).2.2 = us.length ∧
        lookupAssoc bookId (runCheckouts bookId dueAt s (u :: us)).1.books =
          some { b with available := false } ∧
        activeLoanCount bookId (runCheckouts bookId dueAt s (u :: us)).1.loans =
          activeLoanCount bookId s.loans + 1) := by
  intro s bookId uid dueAt b hnd hlk
  refine ⟨?_, ?_, ?_⟩
  · intro hav
    exact checkout_conflict s bookId uid dueAt b hnd hlk hav
  · intro hav
    refine ⟨_, checkout_ok s bookId uid dueAt b hnd hlk hav, ?_, ?_, rfl, rfl, ?_⟩
    · rw [lookupAssoc_updateWhere, hlk]
      simp [hav]
    · intro k hk
      rw [lookupAssoc_updateWhere]
      have hkb : (k == bookId) = false := by simp [hk]
      cases hko : lookupAssoc k s.books <;> simp [hkb]
    · rw [activeLoanCount_append]
      simp [activeLoanCount]
  · intro hav u us
    have hok := checkout_ok s bookId u dueAt b hnd hlk hav
    have hnd2 : (((updateWhere (fun kb => kb.1 == bookId && kb.2.available)
        (fun bk => { bk with available := false }) s.books).1).map Prod.fst).Nodup := by
      rw [updateWhere_keys]
      exact hnd
    have hlk2 : lookupAssoc bookId (updateWhere (fun kb => kb.1 == bookId && kb.2.available)
        (fun bk => { bk with available := false }) s.books).1 =
        some { b with available := false } := by
      rw [lookupAssoc_updateWhere, hlk]
      simp [hav]
    have hall := runCheckouts_all_conflict bookId dueAt us
      { books := (updateWhere (fun kb => kb.1 == bookId && kb.2.available)
          (fun bk => { bk with available := false }) s.books).1,
        loans := s.loans ++ [{ bookId := bookId, userId := u, dueAt := dueAt,
                               returnedAt := none }],
        requests := s.requests }
      { b with available := false } hnd2 hlk2 rfl
    simp [runCheckouts, hok, hall, hlk2, activeLoanCount_append, activeLoanCount]

/-- Witness for C1: three serialized checkout attempts on one available book
produce one win, two conflicts, and leave the book unavailable with one
active loan. -/
theorem checkout_claim_atomicity_witness :
    (runCheckouts 1 none
      { books := [(1, { available := true, requestPending := false })],
        loans := [], requests := [] } (7 :: [8, 9])).2.1 = 1 ∧
    (runCheckouts 1 none
      { books := [(1, { available := true, requestPending := false })],
        loans := [], requests := [] } (7 :: [8, 9])).2.2 = [8, 9].length ∧
    lookupAssoc 1 (runCheckouts 1 none
      { books := [(1, { available := true, requestPending := false })],
        loans := [], requests := [] } (7 :: [8, 9])).1.books =
      some { available := false, requestPending := false } ∧
    activeLoanCount 1 (runCheckouts 1 none
      { books := [(1, { available := true, requestPending := false })],
        loans := [], requests := [] } (7 :: [8, 9])).1.loans =
      activeLoanCount 1
        ({ books := [(1, { available := true, requestPending := false })],
           loans := [], requests := [] } : LendingState).loans + 1 :=
  (checkout_claim_atomicity
    { books := [(1, { available := true, requestPending := false })],
      loans := [], requests := [] } 1 7 none
    { available := true, requestPending := false } (by decide) (by decide)).2.2
    rfl 7 [8, 9]

/-- C2: creating a borrow request claims `requestPending false→true` and
requires `available = true` (otherwise Conflict with nothing created);
approval re-checks `status = PENDING` transactionally and atomically sets the
request APPROVED, flips the book to `available=false, requestPending=false`
and creates a Loan; approving the same request again returns Conflict;
decline sets DECLINED and releases `requestPending` only, leaving the book
available with no Loan created. -/
theorem borrow_request_lifecycle :
    ∀ (s : LendingState) (bookId uid reqId due : Nat) (b : BookRow),
      (s.books.map Prod.fst).Nodup →
      (s.requests.map Prod.fst).Nodup →
      lookupAssoc bookId s.books = some b →
      ((b.available = true → b.requestPending = false →
        ∃ s2, createRequest s bookId uid reqId = .ok s2 ∧
          lookupAssoc bookId s2.books = some { b with requestPending := true } ∧
          s2.requests = s.requests ++
            [(reqId, { userId := uid, bookId := bookId, status := .pending })] ∧
          s2.loans = s.loans) ∧
       (¬ (b.available = true ∧ b.requestPending = false) →
        createRequest s bookId uid reqId = .error .conflict)) ∧
      (∀ req, lookupAssoc reqId s.requests = some req →
        (req.status ≠ .pending → approve s reqId due = .error .conflict) ∧
        (req.status = .pending → req.bookId = bookId →
          b.available = true → b.requestPending = true →
          ∃ s2, approve s reqId due = .ok s2 ∧
            lookupAssoc reqId s2.requests = some { req with status := .approved } ∧
            lookupAssoc bookId s2.books =
              some { b with available := false, requestPending := false } ∧
            s2.loans = s.loans ++ [{ bookId := bookId, userId := req.userId,
                                     dueAt := some due, returnedAt := none }] ∧
            approve s2 reqId due = .error .conflict) ∧
        (req.status = .pending → req.bookId = bookId →
          b.available = true → b.requestPending = true →
          ∃ s2, decline s reqId = .ok s2 ∧
            lookupAssoc reqId s2.requests = some { req with status := .declined } ∧
            lookupAssoc bookId s2.books = some { b with requestPending := false } ∧
            s2.loans = s.loans)) := by
  intro s bookId uid reqId due b hndB hndR hlkB
  refine ⟨⟨?_, ?_⟩, ?_⟩
  · intro hav hrp
    have hc := updateWhere_count_some bookId
      (fun bk => bk.available && !bk.requestPending)
      (fun bk => { bk with requestPending := true }) s.books hndB b hlkB
    simp [hav, hrp] at hc
    refine ⟨⟨(updateWhere
        (fun kb => kb.1 == bookId && (kb.2.available && !kb.2.requestPending))
        (fun bk => { bk with requestPending := true }) s.books).1,
      s.loans,
      s.requests ++ [(reqId, { userId := uid, bookId := bookId, status := .pending })]⟩,
      ?_, ?_, rfl, rfl⟩
    · unfold createRequest
      dsimp only
      rw [hc]
      simp
    · rw [lookupAssoc_updateWhere, hlkB]
      simp [hav, hrp]
  · intro hno
    have hfalse : (b.available && !b.requestPending) = false := by
      cases hA : b.available <;> cases hR : b.requestPending <;> simp_all
    have hc := updateWhere_count_some bookId
      (fun bk => bk.available && !bk.requestPending)
      (fun bk => { bk with requestPending := true }) s.books hndB b hlkB
    simp only [hfalse, Bool.false_eq_true, if_false] at hc
    unfold createRequest
    dsimp only
    rw [hc]
    simp
  · intro req hlkR
    refine ⟨?_, ?_, ?_⟩
    · intro hne
      unfold approve
      rw [hlkR]
      dsimp only
      rw [if_pos hne]
    · intro hpend hbid hav hrp
      subst hbid
      have hcR := updateWhere_count_some reqId
        (fun r => decide (r.status = ReqStatus.pending))
        (fun r => { r with status := .approved }) s.requests hndR req hlkR
      simp [hpend] at hcR
      have hcB := updateWhere_count_some req.bookId
        (fun bk => bk.available && bk.requestPending)
        (fun bk => { bk with available := false, requestPending := false })
        s.books hndB b hlkB
      simp [hav, hrp] at hcB
      have hlkR2 : lookupAssoc reqId (updateWhere
          (fun kr => kr.1 == reqId && decide (kr.2.status = ReqStatus.pending))
          (fun r => { r with status := .approved }) s.requests).1 =
          some { req with status := .approved } := by
        rw [lookupAssoc_updateWhere, hlkR]
        simp [hpend]
      refine ⟨⟨(updateWhere
          (fun kb => kb.1 == req.bookId && (kb.2.available && kb.2.requestPending))
          (fun bk => { bk with available := false, requestPending := false })
          s.books).1,
        s.loans ++ [{ bookId := req.bookId, userId := req.userId,
                      dueAt := some due, returnedAt := none }],
        (updateWhere
          (fun kr => kr.1 == reqId && decide (kr.2.status = ReqStatus.pending))
          (fun r => { r with status := .approved }) s.requests).1⟩,
        ?_, hlkR2, ?_, rfl, ?_⟩
      · unfold approve
        rw [hlkR]
        dsimp only
        rw [if_neg (by simp [hpend]), hcR, if_neg (by simp), hcB, if_neg (by simp)]
      · rw [lookupAssoc_updateWhere, hlkB]
        simp [hav, hrp]
      · unfold approve
        rw [hlkR2]
        dsimp only
        rw [if_pos (by simp)]
    · intro hpend hbid hav hrp
      subst hbid
      have hcR2 := updateWhere_count_some reqId
        (fun r => decide (r.status = ReqStatus.pending))
        (fun r => { r with status := .declined }) s.requests hndR req hlkR
      simp [hpend] at hcR2
      refine ⟨⟨(updateWhere
          (fun kb => kb.1 == req.bookId && (kb.2.available && kb.2.requestPending))
          (fun bk => { bk with requestPending := false }) s.books).1,
        s.loans,
        (updateWhere
          (fun kr => kr.1 == reqId && decide (kr.2.status = ReqStatus.pending))
          (fun r => { r with status := .declined }) s.requests).1⟩,
        ?_, ?_, ?_, rfl⟩
      · unfold decline
        rw [hlkR]
        dsimp only
        rw [if_neg (by simp [hpend]), hcR2, if_neg (by simp)]
      · rw [lookupAssoc_updateWhere, hlkR]
        simp [hpend]
      · rw [lookupAssoc_updateWhere, hlkB]
        simp [hav, hrp]

/-- Witness for C2: request, approve, double-approve and decline behaviour at
a concrete store holding one available book and one pending request. -/
theorem borrow_request_lifecycle_witness :
    (∃ s2, createRequest
        { books := [(1, { available := true, requestPending := false })],
          loans := [], requests := [] } 1 5 9 = .ok s2 ∧
      lookupAssoc 1 s2.books = some { available := true, requestPending := true } ∧
      s2.requests = [] ++ [(9, { userId := 5, bookId := 1, status := .pending })] ∧
      s2.loans = []) :=
  ((borrow_request_lifecycle
    { books := [(1, { available := true, requestPending := false })],
      loans := [], requests := [] } 1 5 9 0
    { available := true, requestPending := false }
    (by decide) (by decide) (by decide)).1.1 rfl rfl)

theorem findActiveLoan_append (bookId : Nat) (l1 l2 : List LoanRow)
    (h : findActiveLoan bookId l1 = none) :
    findActiveLoan bookId (l1 ++ l2) = findActiveLoan bookId l2 := by
  induction l1 with
  | nil => rfl
  | cons l rest ih =>
    rw [List.cons_append]
    by_cases hc : l.bookId = bookId ∧ l.returnedAt = none
    · exfalso
      simp [findActiveLoan, hc] at h
    · simp only [findActiveLoan, if_neg hc] at h ⊢
      exact ih h

/-- C10 (implicit): the direct-checkout claim predicate tests only
`available = true` and ignores `requestPending`, so a book in
REQUEST_PENDING state (`available=true, requestPending=true`) can be
directly checked out, leaving `available=false, requestPending=true`;
a subsequent checkin restores `available=true` without touching
`requestPending`. -/
theorem checkout_ignores_requestPending :
    ∀ (s : LendingState) (bookId uid : Nat) (dueAt : Option Nat) (now : Nat),
      (s.books.map Prod.fst).Nodup →
      lookupAssoc bookId s.books = some { available := true, requestPending := true } →
      findActiveLoan bookId s.loans = none →
      ∃ s2, checkout s bookId uid dueAt = .ok s2 ∧
        lookupAssoc bookId s2.books = some { available := false, requestPending := true } ∧
        ∃ s3, checkin s2 bookId uid false now = .ok s3 ∧
          lookupAssoc bookId s3.books =
            some { available := true, requestPending := true } := by
  intro s bookId uid dueAt now hnd hlk hno
  have hok := checkout_ok s bookId uid dueAt
    { available := true, requestPending := true } hnd hlk rfl
  refine ⟨_, hok, ?_, ?_⟩
  · rw [lookupAssoc_updateWhere, hlk]
    simp
  · have hfind : findActiveLoan bookId (s.loans ++
        [{ bookId := bookId, userId := uid, dueAt := dueAt, returnedAt := none }]) =
        some { bookId := bookId, userId := uid, dueAt := dueAt, returnedAt := none } := by
      rw [findActiveLoan_append bookId s.loans _ hno]
      simp [findActiveLoan]
    refine ⟨⟨(updateWhere (fun kb => kb.1 == bookId)
        (fun bk => { bk with available := true })
        (updateWhere (fun kb => kb.1 == bookId && kb.2.available)
          (fun bk => { bk with available := false }) s.books).1).1,
      setReturnedFirst bookId now (s.loans ++
        [{ bookId := bookId, userId := uid, dueAt := dueAt, returnedAt := none }]),
      s.requests⟩, ?_, ?_⟩
    · unfold checkin
      rw [hfind]
      dsimp only
      rw [if_neg (by simp)]
    · dsimp only
      rw [lookupAssoc_updateWhere, lookupAssoc_updateWhere, hlk]
      simp

/-- Witness for C10: at a concrete one-book store in REQUEST_PENDING state,
checkout succeeds and the pending flag survives checkout and checkin. -/
theorem checkout_ignores_requestPending_witness :
    ∃ s2, checkout
        { books := [(1, { available := true, requestPending := true })],
          loans := [], requests := [] } 1 4 none = .ok s2 ∧
      lookupAssoc 1 s2.books = some { available := false, requestPending := true } ∧
      ∃ s3, checkin s2 1 4 false 77 = .ok s3 ∧
        lookupAssoc 1 s3.books = some { available := true, requestPending := true } :=
  checkout_ignores_requestPending
    { books := [(1, { available := true, requestPending := true })],
      loans := [], requests := [] } 1 4 none 77 (by decide) (by decide) (by decide)

/-! ## C9 — recommendation ranking -/

theorem round2_strict_mono (x y : ℚ) (h : x + 6 / 5 ≤ y) : round2 x < round2 y := by
  unfold round2
  have h1 : (⌊x * 100 + 1 / 2⌋ : ℚ) ≤ x * 100 + 1 / 2 := Int.floor_le _
  have h2 : y * 100 + 1 / 2 - 1 < (⌊y * 100 + 1 / 2⌋ : ℚ) := Int.sub_one_lt_floor _
  have h3 : (⌊x * 100 + 1 / 2⌋ : ℚ) < (⌊y * 100 + 1 / 2⌋ : ℚ) := by linarith
  have h100 : (0 : ℚ) < 100 := by norm_num
  exact div_lt_div_of_pos_right h3 h100

theorem rec_score_genre_mono (history : List HistEntry) (vb : Nat → ℚ)
    (b1 b2 : RecBook) (g1 g2 : String)
    (h1 : b1.genre = some g1) (h2 : b2.genre = some g2)
    (ha : b1.author = b2.author) (hr : b1.averageRating = b2.averageRating)
    (hc : b1.ratingsCount = b2.ratingsCount) (hav : b1.available = b2.available)
    (hgw : genreWeightOf history g2 + 1 ≤ genreWeightOf history g1) :
    recommendationScore history vb b2 < recommendationScore history vb b1 := by
  unfold recommendationScore
  rw [h1, h2, ha, hr, hc, hav]
  dsimp only
  apply round2_strict_mono
  have h65 : genreWeightOf history g2 * (6 / 5) + 6 / 5 ≤
      genreWeightOf history g1 * (6 / 5) := by nlinarith
  linarith

/-- C9: the recency weight of the history entry at position i is
max(1, 5 − ⌊i/8⌋); with equal author affinity, rating, ratings count and
availability, a strictly greater genre weight yields a strictly greater
recommendation score (for any volume-boost oracle); every pool candidate is
available, not request-pending and not previously borrowed, with the pool
bounded at 200; and a borrower with three prior Fantasy loans ranks an
available Fantasy book above an equally-rated available Romance book. -/
theorem recommendation_ranking :
    (∀ i : Nat, recencyWeight i = max 1 ((5 : ℚ) - (i / 8 : Nat)) ∧
      1 ≤ recencyWeight i ∧ recencyWeight i ≤ 5) ∧
    (∀ (history : List HistEntry) (vb : Nat → ℚ) (b1 b2 : RecBook) (g1 g2 : String),
      b1.genre = some g1 → b2.genre = some g2 → b1.author = b2.author →
      b1.averageRating = b2.averageRating → b1.ratingsCount = b2.ratingsCount →
      b1.available = b2.available →
      genreWeightOf history g2 + 1 ≤ genreWeightOf history g1 →
      recommendationScore history vb b2 < recommendationScore history vb b1) ∧
    (∀ (allBooks : List RecBook) (borrowed : List Nat) (b : RecBook),
      b ∈ candidatePool allBooks borrowed →
      b.available = true ∧ b.requestPending = false ∧ b.id ∉ borrowed) ∧
    (∀ (allBooks : List RecBook) (borrowed : List Nat),
      (candidatePool allBooks borrowed).length ≤ 200) ∧
    (∀ vb : Nat → ℚ,
      (recommendPipeline
        [{ bookId := 10, genre := some "Fantasy", author := "H" },
         { bookId := 11, genre := some "Fantasy", author := "H" },
         { bookId := 12, genre := some "Fantasy", author := "H" }] vb
        [{ id := 1, title := "F", author := "Z", genre := some "Fantasy",
           averageRating := some 4, ratingsCount := some 100, available := true,
           requestPending := false },
         { id := 2, title := "R", author := "Z", genre := some "Romance",
           averageRating := some 4, ratingsCount := some 100, available := true,
           requestPending := false }] 5).map Prod.fst =
      [{ id := 1, title := "F", author := "Z", genre := some "Fantasy",
         averageRating := some 4, ratingsCount := some 100, available := true,
         requestPending := false },
       { id := 2, title := "R", author := "Z", genre := some "Romance",
         averageRating := some 4, ratingsCount := some 100, available := true,
         requestPending := false }]) := by
  refine ⟨?_, ?_, ?_, ?_, ?_⟩
  · intro i
    refine ⟨rfl, ?_, ?_⟩
    · exact le_max_left _ _
    · unfold recencyWeight
      have h0 : (0 : ℚ) ≤ ((i / 8 : Nat) : ℚ) := Nat.cast_nonneg _
      rw [max_le_iff]
      constructor <;> linarith
  · intro history vb b1 b2 g1 g2 h1 h2 ha hr hc hav hgw
    exact rec_score_genre_mono history vb b1 b2 g1 g2 h1 h2 ha hr hc hav hgw
  · intro allBooks borrowed b hb
    unfold candidatePool at hb
    have hb2 := List.mem_of_mem_take hb
    rw [List.mem_filter] at hb2
    have := hb2.2
    simp only [Bool.and_eq_true, Bool.not_eq_true', decide_eq_true_eq] at this
    exact ⟨this.1.1, this.1.2, this.2⟩
  · intro allBooks borrowed
    exact List.length_take_le _ _
  · intro vb
    have hgwF : genreWeightOf
        [{ bookId := 10, genre := some "Fantasy", author := "H" },
         { bookId := 11, genre := some "Fantasy", author := "H" },
         { bookId := 12, genre := some "Fantasy", author := "H" }] "Fantasy" = 15 := by
      simp [genreWeightOf, recencyWeight, List.enum, List.enumFrom, max_def,
        (show ("Fantasy" : String) ≠ "" by decide)]
      norm_num
    have hgwR : genreWeightOf
        [{ bookId := 10, genre := some "Fantasy", author := "H" },
         { bookId := 11, genre := some "Fantasy", author := "H" },
         { bookId := 12, genre := some "Fantasy", author := "H" }] "Romance" = 0 := by
      simp [genreWeightOf, List.enum, List.enumFrom,
        (show (some "Fantasy" : Option String) ≠ some "Romance" by decide)]
    have hlt := rec_score_genre_mono
      [{ bookId := 10, genre := some "Fantasy", author := "H" },
       { bookId := 11, genre := some "Fantasy", author := "H" },
       { bookId := 12, genre := some "Fantasy", author := "H" }] vb
      { id := 1, title := "F", author := "Z", genre := some "Fantasy",
        averageRating := some 4, ratingsCount := some 100, available := true,
        requestPending := false }
      { id := 2, title := "R", author := "Z", genre := some "Romance",
        averageRating := some 4, ratingsCount := some 100, available := true,
        requestPending := false }
      "Fantasy" "Romance" rfl rfl rfl rfl rfl rfl
      (by rw [hgwF, hgwR]; norm_num)
    unfold recommendPipeline rankRecommendations
    have hpool : candidatePool
        [{ id := 1, title := "F", author := "Z", genre := some "Fantasy",
           averageRating := some 4, ratingsCount := some 100, available := true,
           requestPending := false },
         { id := 2, title := "R", author := "Z", genre := some "Romance",
           averageRating := some 4, ratingsCount := some 100, available := true,
           requestPending := false }]
        (([{ bookId := 10, genre := some "Fantasy", author := "H" },
           { bookId := 11, genre := some "Fantasy", author := "H" },
           { bookId := 12, genre := some "Fantasy", author := "H" }] :
            List HistEntry).map (fun h => h.bookId)) =
        [{ id := 1, title := "F", author := "Z", genre := some "Fantasy",
           averageRating := some 4, ratingsCount := some 100, available := true,
           requestPending := false },
         { id := 2, title := "R", author := "Z", genre := some "Romance",
           averageRating := some 4, ratingsCount := some 100, available := true,
           requestPending := false }] := rfl
    rw [hpool]
    simp only [List.map_cons, List.map_nil, List.foldl_cons, List.foldl_nil, insertDesc]
    rw [if_neg (not_lt.mpr (le_of_lt hlt))]
    simp [insertDesc]

/-- Witness for C9: a concrete pool member is available, not request-pending
and not previously borrowed. -/
theorem recommendation_ranking_witness :
    ({ id := 1, title := "F", author := "Z", genre := some "Fantasy",
       averageRating := some 4, ratingsCount := some 100, available := true,
       requestPending := false } : RecBook).available = true ∧
    ({ id := 1, title := "F", author := "Z", genre := some "Fantasy",
       averageRating := some 4, ratingsCount := some 100, available := true,
       requestPending := false } : RecBook).requestPending = false ∧
    ({ id := 1, title := "F", author := "Z", genre := some "Fantasy",
       averageRating := some 4, ratingsCount := some 100, available := true,
       requestPending := false } : RecBook).id ∉ ([] : List Nat) :=
  recommendation_ranking.2.2.1
    [{ id := 1, title := "F", author := "Z", genre := some "Fantasy",
       averageRating := some 4, ratingsCount := some 100, available := true,
       requestPending := false }] []
    { id := 1, title := "F", author := "Z", genre := some "Fantasy",
      averageRating := some 4, ratingsCount := some 100, available := true,
      requestPending := false }
    (by simp [candidatePool])

end MLMS
